import Mathlib

/-!
Shallow embedding of the `DrugAuth` Solidity contract (the batch identity and
custody ledger core of the repository) and of the server-side in-memory
storage layer (`MemStorage` in `server/storage.ts`, routes in
`server/routes.ts`), together with proofs of the specification claims.

Conventions for the contract embedding:
* `Address` is `Nat`; the zero address `address(0)` is `0`.
* Solidity mappings are total functions with the Solidity default value.
* A `require` failure is an `Except.error`; by EVM semantics a revert rolls
  back every mutation, so an erroring call leaves the caller's state
  unchanged (`applyOp` makes this explicit).
* The inherited OpenZeppelin ERC721/ERC721Enumerable behavior (not part of
  the repository sources) is embedded faithfully to the library: `_owners`
  as a token-to-address map, per-owner token lists maintained by append on
  mint/receive and swap-and-pop on removal, `ownerOf` reverting on a
  nonexistent token, `Ownable` keeping the deployer as contract owner.
* Revert reasons are classified into the spec's error taxonomy
  (Validation/Conflict/Authorization/NotFound/State), keeping the
  Solidity revert strings as messages.
-/

namespace DrugAuth

/-- Ethereum addresses, with `0` as `address(0)`. -/
abbrev Address := Nat

/-- One custody event, `struct TransferEvent` of the contract
(`from`, `to`, `timestamp`, `eventType`). -/
structure TransferEvent where
  from_ : Address
  to_ : Address
  timestamp : Nat
  eventType : String
deriving DecidableEq, Repr

/-- One batch record, `struct Drug` of the contract. -/
structure Drug where
  batchId : String
  drugName : String
  manufacturer : String
  expiryDate : Nat
  ipfsHash : String
  currentOwner : Address
  timestamp : Nat
  isActive : Bool
deriving DecidableEq, Repr

/-- The Solidity default value of the `Drug` mapping. -/
def defaultDrug : Drug :=
  { batchId := "", drugName := "", manufacturer := "", expiryDate := 0,
    ipfsHash := "", currentOwner := 0, timestamp := 0, isActive := false }

/-- Error kinds of the specification's taxonomy, carrying the revert reason. -/
inductive Err where
  | validation (msg : String)
  | conflict (msg : String)
  | authorization (msg : String)
  | notFound (msg : String)
  | state (msg : String)
deriving DecidableEq, Repr

/-- Full contract state: the contract's four declared mappings and token
counter, plus the inherited ERC721 ownership map, the ERC721Enumerable
per-owner token lists, and the `Ownable` contract owner. -/
structure State where
  tokenCounter : Nat
  owners : Nat → Address
  ownedTokens : Address → List Nat
  drugs : Nat → Drug
  batchIdToTokenId : String → Nat
  drugHistory : Nat → List TransferEvent
  userRoles : Address → String
  contractOwner : Address

/-- Constructor `constructor() ERC721("DrugAuth", "DRUG")`: empty ledger, deployer made
`Ownable` owner and assigned the role `"manufacturer"`. -/
def initialState (deployer : Address) : State where
  tokenCounter := 0
  owners := fun _ => 0
  ownedTokens := fun _ => []
  drugs := fun _ => defaultDrug
  batchIdToTokenId := fun _ => 0
  drugHistory := fun _ => []
  userRoles := fun a => if a = deployer then "manufacturer" else ""
  contractOwner := deployer

/-- ERC721 `_exists(tokenId)`: the token has a nonzero owner. -/
def tokenExists (s : State) (tokenId : Nat) : Bool :=
  s.owners tokenId ≠ 0

/-- ERC721 `ownerOf`, reverting `"ERC721: invalid token ID"` on a
nonexistent token. -/
def ownerOf (s : State) (tokenId : Nat) : Except Err Address :=
  if s.owners tokenId = 0 then .error (.notFound "ERC721: invalid token ID")
  else .ok (s.owners tokenId)

/-- ERC721 `balanceOf`. -/
def balanceOf (s : State) (a : Address) : Nat :=
  (s.ownedTokens a).length

/-- OpenZeppelin `ERC721Enumerable._removeTokenFromOwnerEnumeration`:
swap-and-pop — overwrite the removed token's slot with the last token of the
list, then drop the last slot. (`_ownedTokensIndex tokenId` is the index of
`tokenId` in the list, i.e. `List.indexOf` while the list has no
duplicates.) -/
def removeOwnedToken (l : List Nat) (tokenId : Nat) : List Nat :=
  (l.set (List.indexOf tokenId l) (l.getLastD 0)).dropLast

/-- ERC721 `_transfer(from, to, tokenId)` state change (its `require`s —
current owner is `from`, `to ≠ address(0)` — are established at every call
site below): reassign the token and update the enumeration lists, removal
before insertion as in `_beforeTokenTransfer`. -/
def erc721Transfer (s : State) (fromA toA : Address) (tokenId : Nat) : State :=
  let afterRemove : Address → List Nat := fun a =>
    if a = fromA then removeOwnedToken (s.ownedTokens fromA) tokenId
    else s.ownedTokens a
  { s with
    owners := fun t => if t = tokenId then toA else s.owners t
    ownedTokens := fun a =>
      if a = toA then afterRemove toA ++ [tokenId] else afterRemove a }

/-- ERC721 `_safeMint(to, tokenId)` (receiver hook irrelevant: callers are
externally owned accounts). -/
def safeMint (s : State) (toA : Address) (tokenId : Nat) : Except Err State :=
  if toA = 0 then .error (.validation "ERC721: mint to the zero address")
  else if s.owners tokenId ≠ 0 then .error (.conflict "ERC721: token already minted")
  else .ok { s with
    owners := fun t => if t = tokenId then toA else s.owners t
    ownedTokens := fun a =>
      if a = toA then s.ownedTokens toA ++ [tokenId] else s.ownedTokens a }

/-- Function `registerDrug` (contract lines 167–209): validation `require`s, then
increment the counter, mint token `counter`, store the `Drug`, index the
batch code, and push the synthetic manufacture event. `sender` is
`msg.sender`, `now` is `block.timestamp`. Returns the new token id. -/
def registerDrug (s : State) (sender : Address) (batchId drugName manufacturer : String)
    (expiryDate : Nat) (ipfsHash : String) (now : Nat) : Except Err (State × Nat) :=
  if batchId.length = 0 then .error (.validation "Batch ID cannot be empty")
  else if drugName.length = 0 then .error (.validation "Drug name cannot be empty")
  else if manufacturer.length = 0 then .error (.validation "Manufacturer cannot be empty")
  else if ¬ expiryDate > now then .error (.validation "Expiry date must be in the future")
  else if s.batchIdToTokenId batchId ≠ 0 then .error (.conflict "Batch ID already exists")
  else
    let tokenId := s.tokenCounter + 1
    match safeMint { s with tokenCounter := tokenId } sender tokenId with
    | .error e => .error e
    | .ok s1 =>
      .ok ({ s1 with
        drugs := fun t => if t = tokenId then
            { batchId := batchId, drugName := drugName, manufacturer := manufacturer,
              expiryDate := expiryDate, ipfsHash := ipfsHash, currentOwner := sender,
              timestamp := now, isActive := true }
          else s1.drugs t
        batchIdToTokenId := fun c => if c = batchId then tokenId else s1.batchIdToTokenId c
        drugHistory := fun t => if t = tokenId then
            s1.drugHistory tokenId ++ [⟨0, sender, now, "manufacture"⟩]
          else s1.drugHistory t }, tokenId)

/-- Function `transferOwnership` (contract lines 211–235): the `onlyTokenOwner`
modifier, the four `require`s in source order, then the ERC721 transfer, the
`currentOwner` update and the history push. The emitted
`OwnershipTransferred` data is returned as the appended event. -/
def transferOwnership (s : State) (sender : Address) (tokenId : Nat) (toA : Address)
    (eventType : String) (now : Nat) : Except Err (State × TransferEvent) :=
  match ownerOf s tokenId with
  | .error e => .error e
  | .ok owner =>
    if owner ≠ sender then .error (.authorization "Not the token owner")
    else if toA = 0 then .error (.validation "Cannot transfer to zero address")
    else if toA = owner then .error (.validation "Cannot transfer to current owner")
    else if ¬ (s.drugs tokenId).isActive then .error (.state "Drug is not active")
    else if ¬ (s.drugs tokenId).expiryDate > now then .error (.state "Drug has expired")
    else
      let ev : TransferEvent := ⟨owner, toA, now, eventType⟩
      let s1 := erc721Transfer s owner toA tokenId
      .ok ({ s1 with
        drugs := fun t => if t = tokenId then
            { s1.drugs tokenId with currentOwner := toA } else s1.drugs t
        drugHistory := fun t => if t = tokenId then
            s1.drugHistory tokenId ++ [ev] else s1.drugHistory t }, ev)

/-- Function `verifyDrug` (lines 237–240). -/
def verifyDrug (s : State) (tokenId : Nat) : Except Err Drug :=
  if s.owners tokenId = 0 then .error (.notFound "Drug does not exist")
  else .ok (s.drugs tokenId)

/-- Function `verifyDrugByBatchId` (lines 242–246). -/
def verifyDrugByBatchId (s : State) (batchId : String) : Except Err Drug :=
  let tokenId := s.batchIdToTokenId batchId
  if tokenId = 0 then .error (.notFound "Batch ID does not exist")
  else .ok (s.drugs tokenId)

/-- Function `getDrugHistory` (lines 248–251). -/
def getDrugHistory (s : State) (tokenId : Nat) : Except Err (List TransferEvent) :=
  if s.owners tokenId = 0 then .error (.notFound "Drug does not exist")
  else .ok (s.drugHistory tokenId)

/-- Function `deactivateDrug` (lines 253–255): `onlyTokenOwner`, then set
`isActive := false` (no history write, no error when already inactive). -/
def deactivateDrug (s : State) (sender : Address) (tokenId : Nat) : Except Err State :=
  match ownerOf s tokenId with
  | .error e => .error e
  | .ok owner =>
    if owner ≠ sender then .error (.authorization "Not the token owner")
    else .ok { s with
      drugs := fun t => if t = tokenId then
          { s.drugs tokenId with isActive := false } else s.drugs t }

/-- Function `assignRole` (lines 257–260): `onlyOwner`, then overwrite the role. -/
def assignRole (s : State) (sender user : Address) (role : String) : Except Err State :=
  if sender ≠ s.contractOwner then .error (.authorization "Ownable: caller is not the owner")
  else .ok { s with
    userRoles := fun a => if a = user then role else s.userRoles a }

/-- Function `getUserRole` (lines 262–264): plain mapping read, never errors. -/
def getUserRole (s : State) (user : Address) : String :=
  s.userRoles user

/-- Function `getDrugsByOwner` (lines 266–275): `tokenOfOwnerByIndex owner i` for
`i < balanceOf owner`, which is exactly the owner's enumeration list. -/
def getDrugsByOwner (s : State) (owner : Address) : List Nat :=
  s.ownedTokens owner

/-- Function `totalDrugs` (lines 277–279). -/
def totalDrugs (s : State) : Nat :=
  s.tokenCounter

/-- One external call to the contract, with its `msg.sender` and
`block.timestamp`. -/
inductive Op where
  | register (sender : Address) (batchId drugName manufacturer : String)
      (expiryDate : Nat) (ipfsHash : String) (now : Nat)
  | transfer (sender : Address) (tokenId : Nat) (toA : Address)
      (eventType : String) (now : Nat)
  | deactivate (sender : Address) (tokenId : Nat)
  | assign (sender user : Address) (role : String)

/-- Apply one call with EVM revert semantics: an erroring call leaves the
state unchanged. -/
def applyOp (s : State) : Op → State
  | .register sender b d m e i now =>
    match registerDrug s sender b d m e i now with
    | .ok (s', _) => s'
    | .error _ => s
  | .transfer sender tokenId toA et now =>
    match transferOwnership s sender tokenId toA et now with
    | .ok (s', _) => s'
    | .error _ => s
  | .deactivate sender tokenId =>
    match deactivateDrug s sender tokenId with
    | .ok s' => s'
    | .error _ => s
  | .assign sender user role =>
    match assignRole s sender user role with
    | .ok s' => s'
    | .error _ => s

/-- The contract state after a sequence of calls on a fresh deployment. -/
def execOps (deployer : Address) (ops : List Op) : State :=
  ops.foldl applyOp (initialState deployer)

/-- States the deployed contract can actually be in (the deployer is an
externally owned account, never `address(0)`). -/
def Reachable (s : State) : Prop :=
  ∃ deployer ops, deployer ≠ 0 ∧ s = execOps deployer ops

end DrugAuth

namespace Server

/-!
Embedding of `server/storage.ts` (`MemStorage`) and the two mutating routes
of `server/routes.ts`. JS `Map` iteration order is insertion order, so the
maps are lists in insertion order; `randomUUID` keys are modelled by a
fresh-`Nat` counter (only their uniqueness is ever used). `new Date()` reads
of the wall clock are passed in as an explicit `now : Nat`. JS string
falsiness (`x || y` replacing the empty string) is modelled explicitly.
-/

/-- A row of `drug_batches` (`DrugBatch` in `shared/schema`). -/
structure DrugBatch where
  id : Nat
  batchId : String
  drugName : String
  manufacturer : String
  manufacturingDate : Nat
  expiryDate : Nat
  currentOwner : String
  currentOwnerAddress : String
  status : String
  ipfsHash : Option String
  contractAddress : Option String
  tokenId : Option Nat
  createdAt : Nat
  updatedAt : Nat
deriving DecidableEq, Repr

/-- A row of `supply_chain_events` (`SupplyChainEvent` in `shared/schema`). -/
structure SupplyChainEvent where
  id : Nat
  batchId : String
  fromOwner : Option String
  toOwner : String
  fromOwnerAddress : Option String
  toOwnerAddress : String
  eventType : String
  transactionHash : Option String
  blockNumber : Option Nat
  timestamp : Nat
deriving DecidableEq, Repr

/-- Structure `InsertDrugBatch`: the client-supplied fields (optional columns as
`Option`). -/
structure InsertDrugBatch where
  batchId : String
  drugName : String
  manufacturer : String
  manufacturingDate : Nat
  expiryDate : Nat
  currentOwner : String
  currentOwnerAddress : String
  status : Option String
  ipfsHash : Option String
  contractAddress : Option String
  tokenId : Option Nat
deriving DecidableEq, Repr

/-- Structure `InsertSupplyChainEvent`. -/
structure InsertSupplyChainEvent where
  batchId : String
  fromOwner : Option String
  toOwner : String
  fromOwnerAddress : Option String
  toOwnerAddress : String
  eventType : String
  transactionHash : Option String
  blockNumber : Option Nat
deriving DecidableEq, Repr

/-- State of `MemStorage`: the two maps in insertion order plus the
fresh-id source standing for `randomUUID`. (The `users` map is untouched by
every claim.) -/
structure MemStorage where
  drugBatches : List DrugBatch
  supplyChainEvents : List SupplyChainEvent
  nextId : Nat
deriving DecidableEq, Repr

/-- Initial store, `new MemStorage()`. -/
def emptyStorage : MemStorage :=
  { drugBatches := [], supplyChainEvents := [], nextId := 0 }

/-- JS `x || "d"` for a possibly-absent string: the empty string is falsy. -/
def orDefault (x : Option String) (d : String) : String :=
  match x with
  | some v => if v = "" then d else v
  | none => d

/-- JS `x || null` for a possibly-absent string. -/
def orNull (x : Option String) : Option String :=
  match x with
  | some v => if v = "" then none else some v
  | none => none

/-- JS `x || null` for a possibly-absent number: `0` is falsy. -/
def orNullNat (x : Option Nat) : Option Nat :=
  match x with
  | some v => if v = 0 then none else some v
  | none => none

/-- JS `String.prototype.toLowerCase` on the ASCII alphabet (owner
addresses are ASCII hex strings). -/
def lowercase (x : String) : String :=
  x.map Char.toLower

/-- The comparator `(a, b) => new Date(b.createdAt).getTime() - new
Date(a.createdAt).getTime()`: sort by `createdAt` descending. -/
def byCreatedAtDesc (a b : DrugBatch) : Bool :=
  b.createdAt ≤ a.createdAt

/-- Function `createDrugBatch` (storage.ts lines 89–102). -/
def createDrugBatch (s : MemStorage) (ins : InsertDrugBatch) (now : Nat) :
    MemStorage × DrugBatch :=
  let drugBatch : DrugBatch :=
    { id := s.nextId
      batchId := ins.batchId
      drugName := ins.drugName
      manufacturer := ins.manufacturer
      manufacturingDate := ins.manufacturingDate
      expiryDate := ins.expiryDate
      currentOwner := ins.currentOwner
      currentOwnerAddress := ins.currentOwnerAddress
      status := orDefault ins.status "manufactured"
      ipfsHash := ins.ipfsHash
      contractAddress := ins.contractAddress
      tokenId := ins.tokenId
      createdAt := now
      updatedAt := now }
  ({ s with drugBatches := s.drugBatches ++ [drugBatch], nextId := s.nextId + 1 },
   drugBatch)

/-- Function `createSupplyChainEvent` (storage.ts lines 127–140). -/
def createSupplyChainEvent (s : MemStorage) (ins : InsertSupplyChainEvent) (now : Nat) :
    MemStorage × SupplyChainEvent :=
  let event : SupplyChainEvent :=
    { id := s.nextId
      batchId := ins.batchId
      fromOwner := orNull ins.fromOwner
      toOwner := ins.toOwner
      fromOwnerAddress := orNull ins.fromOwnerAddress
      toOwnerAddress := ins.toOwnerAddress
      eventType := ins.eventType
      transactionHash := orNull ins.transactionHash
      blockNumber := orNullNat ins.blockNumber
      timestamp := now }
  ({ s with supplyChainEvents := s.supplyChainEvents ++ [event], nextId := s.nextId + 1 },
   event)

/-- Function `getDrugBatchByBatchId` (storage.ts lines 77–81): first stored batch
with this `batchId`. -/
def getDrugBatchByBatchId (s : MemStorage) (batchId : String) : Option DrugBatch :=
  s.drugBatches.find? (fun b => b.batchId = batchId)

/-- Function `getDrugBatchesByOwner` (storage.ts lines 83–87): case-insensitive
filter on `currentOwnerAddress`, then sort by `createdAt` descending. -/
def getDrugBatchesByOwner (s : MemStorage) (ownerAddress : String) : List DrugBatch :=
  ((s.drugBatches.filter
      (fun b => lowercase b.currentOwnerAddress = lowercase ownerAddress)).mergeSort
    byCreatedAtDesc)

/-- The `Partial<DrugBatch>` update used by the transfer route
(`currentOwner`, `currentOwnerAddress`, `status`; `updatedAt` is always
rewritten by `updateDrugBatch` itself). -/
structure BatchUpdates where
  currentOwner : Option String
  currentOwnerAddress : Option String
  status : Option String
deriving DecidableEq, Repr

/-- Function `updateDrugBatch` (storage.ts lines 104–118): throws when the id is
unknown, otherwise overwrites the given fields in place and refreshes
`updatedAt`. -/
def updateDrugBatch (s : MemStorage) (id : Nat) (u : BatchUpdates) (now : Nat) :
    Except String (MemStorage × DrugBatch) :=
  match s.drugBatches.find? (fun b => b.id = id) with
  | none => .error "Drug batch not found"
  | some existing =>
    let updated : DrugBatch :=
      { existing with
        currentOwner := u.currentOwner.getD existing.currentOwner
        currentOwnerAddress := u.currentOwnerAddress.getD existing.currentOwnerAddress
        status := u.status.getD existing.status
        updatedAt := now }
    .ok ({ s with drugBatches :=
            s.drugBatches.map (fun b => if b.id = id then updated else b) },
         updated)

/-- Result shape of `getDashboardStats` (storage.ts lines 142–161). -/
structure DashboardStats where
  totalBatches : Nat
  activeTransfers : Nat
  verifiedDrugs : Nat
  gasUsed : String
deriving DecidableEq, Repr

/-- Function `getDashboardStats`: counts by the `status` field only. -/
def getDashboardStats (s : MemStorage) : DashboardStats :=
  { totalBatches := s.drugBatches.length
    activeTransfers := (s.drugBatches.filter (fun b => b.status = "in_transit")).length
    verifiedDrugs := (s.drugBatches.filter (fun b => b.status ≠ "expired")).length
    gasUsed := "0.0234" }

/-- Route `POST /api/drug-batches` (routes.ts lines 77–97): create the batch and
the initial manufacture event. -/
def routeCreateDrugBatch (s : MemStorage) (ins : InsertDrugBatch) (now : Nat) :
    MemStorage × DrugBatch × SupplyChainEvent :=
  let (s1, drugBatch) := createDrugBatch s ins now
  let (s2, ev) := createSupplyChainEvent s1
    { batchId := drugBatch.batchId
      fromOwner := none
      toOwner := drugBatch.currentOwner
      fromOwnerAddress := none
      toOwnerAddress := drugBatch.currentOwnerAddress
      eventType := "manufacture"
      transactionHash := none
      blockNumber := none } now
  (s2, drugBatch, ev)

/-- Route `POST /api/drug-batches/transfer` (routes.ts lines 99–136): JS-falsy
field check, batch lookup, ownership/status update, then the transfer
event. -/
def routeTransfer (s : MemStorage) (batchId newOwner newOwnerAddress eventType : String)
    (transactionHash : Option String) (now : Nat) :
    Except String (MemStorage × DrugBatch × SupplyChainEvent) :=
  if batchId = "" ∨ newOwner = "" ∨ newOwnerAddress = "" ∨ eventType = "" then
    .error "Missing required fields"
  else
    match getDrugBatchByBatchId s batchId with
    | none => .error "Drug batch not found"
    | some currentDrug =>
      match updateDrugBatch s currentDrug.id
          { currentOwner := some newOwner
            currentOwnerAddress := some newOwnerAddress
            status := some (if eventType = "deliver" then "delivered" else "in_transit") }
          now with
      | .error e => .error e
      | .ok (s1, updatedDrug) =>
        let (s2, ev) := createSupplyChainEvent s1
          { batchId := batchId
            fromOwner := some currentDrug.currentOwner
            toOwner := newOwner
            fromOwnerAddress := some currentDrug.currentOwnerAddress
            toOwnerAddress := newOwnerAddress
            eventType := eventType
            transactionHash := transactionHash
            blockNumber := none } now
        .ok (s2, updatedDrug, ev)

/-- Claim C8's reading of `nonExpiredCount`: batches whose expiry is
strictly after the current time, regardless of `isActive`/status. Written
from the spec's words, to be compared with `getDashboardStats`. -/
def specNonExpiredCount (s : MemStorage) (now : Nat) : Nat :=
  (s.drugBatches.filter (fun b => now < b.expiryDate)).length

/-- The most recent (last appended) supply-chain event for a batch code. -/
def lastEventFor (s : MemStorage) (batchId : String) : Option SupplyChainEvent :=
  (s.supplyChainEvents.filter (fun ev => ev.batchId = batchId)).getLast?

/-- Claim C8's reading of `activeTransfersInProgress`: batches whose most
recent event is a non-terminal transfer kind (`transfer`/`distribute`, not
`deliver`). Written from the spec's words, to be compared with
`getDashboardStats`. -/
def specActiveTransfersInProgress (s : MemStorage) : Nat :=
  (s.drugBatches.filter (fun b =>
    match lastEventFor s b.batchId with
    | some ev => ev.eventType = "transfer" ∨ ev.eventType = "distribute"
    | none => false)).length

end Server

namespace DrugAuth

/-- The six transfer preconditions in the specification's listed order
(claim C2). Written from the spec's words — existence, requester is current
owner (`ownerIdentity`), target differs from current owner, target
non-empty, batch active, batch unexpired — to be compared with
`transferOwnership`. -/
inductive SpecTransferFailure where
  | notFound
  | notOwner
  | selfTransfer
  | emptyTarget
  | inactive
  | expired
deriving DecidableEq, Repr

/-- First failing check in the spec's order, `none` when all six pass. -/
def specTransferFailure (s : State) (sender : Address) (tokenId : Nat) (toA : Address)
    (now : Nat) : Option SpecTransferFailure :=
  if s.owners tokenId = 0 then some .notFound
  else if sender ≠ (s.drugs tokenId).currentOwner then some .notOwner
  else if toA = (s.drugs tokenId).currentOwner then some .selfTransfer
  else if toA = 0 then some .emptyTarget
  else if (s.drugs tokenId).isActive = false then some .inactive
  else if ¬ (s.drugs tokenId).expiryDate > now then some .expired
  else none

/-- The error each spec check maps to: its taxonomy kind, with the
contract's revert reason as the message (`inactive` is the spec's
"batch inactive" `StateError`, `expired` the "batch expired" one). -/
def specFailureErr : SpecTransferFailure → Err
  | .notFound => .notFound "ERC721: invalid token ID"
  | .notOwner => .authorization "Not the token owner"
  | .selfTransfer => .validation "Cannot transfer to current owner"
  | .emptyTarget => .validation "Cannot transfer to zero address"
  | .inactive => .state "Drug is not active"
  | .expired => .state "Drug has expired"

/-- Well-formedness of a contract state; every reachable state satisfies it
(`wf_reachable`). Ties the ERC721 ownership map, the enumeration lists, the
drug records, the batch-code index and the audit logs together. -/
structure WF (s : State) : Prop where
  counter_bound : ∀ t, s.owners t ≠ 0 → 1 ≤ t ∧ t ≤ s.tokenCounter
  owned_owner : ∀ a t, t ∈ s.ownedTokens a → s.owners t = a ∧ a ≠ 0
  owner_owned : ∀ t, s.owners t ≠ 0 → t ∈ s.ownedTokens (s.owners t)
  owned_nodup : ∀ a, (s.ownedTokens a).Nodup
  fresh_history : ∀ t, s.owners t = 0 → s.drugHistory t = []
  fresh_drug : ∀ t, s.owners t = 0 → s.drugs t = defaultDrug
  hist_head : ∀ t, s.owners t ≠ 0 →
    ∃ ev rest, s.drugHistory t = ev :: rest ∧ ev.from_ = 0 ∧ ev.eventType = "manufacture"
  owner_sync : ∀ t, s.owners t ≠ 0 → (s.drugs t).currentOwner = s.owners t
  last_to : ∀ t ev, s.owners t ≠ 0 → (s.drugHistory t).getLast? = some ev →
    ev.to_ = (s.drugs t).currentOwner
  code_token : ∀ c, s.batchIdToTokenId c ≠ 0 →
    s.owners (s.batchIdToTokenId c) ≠ 0 ∧ (s.drugs (s.batchIdToTokenId c)).batchId = c
  token_code : ∀ t, s.owners t ≠ 0 →
    (s.drugs t).batchId ≠ "" ∧ s.batchIdToTokenId ((s.drugs t).batchId) = t

end DrugAuth

namespace DrugAuth

/-! ### Basic lemmas about the enumeration lists -/

theorem removeOwnedToken_perm_erase : ∀ (l : List Nat) (t : Nat), l.Nodup → t ∈ l →
    (removeOwnedToken l t).Perm (l.erase t) := by
  intro l
  induction l with
  | nil => intro t _ hm; simp at hm
  | cons a as ih =>
    intro t hnd hm
    rw [List.nodup_cons] at hnd
    by_cases hta : t = a
    · subst hta
      have hidx : List.indexOf t (t :: as) = 0 := by simp [List.indexOf_cons]
      cases as with
      | nil => simp [removeOwnedToken, List.erase_cons]
      | cons b bs =>
        have hasne : (b :: bs) ≠ ([] : List Nat) := by simp
        have hgl : (t :: b :: bs).getLastD 0 = (b :: bs).getLast hasne := by
          rw [List.getLastD_eq_getLast?, List.getLast?_eq_getLast _ (by simp),
            Option.getD_some, List.getLast_cons hasne]
        have her : (t :: b :: bs).erase t = b :: bs := by simp [List.erase_cons]
        unfold removeOwnedToken
        rw [hidx, hgl, her]
        show (((b :: bs).getLast hasne :: b :: bs).dropLast).Perm (b :: bs)
        rw [List.dropLast_cons₂]
        conv_rhs => rw [← List.dropLast_append_getLast hasne]
        exact (List.perm_append_singleton _ _).symm
    · have hmas : t ∈ as := by
        rcases List.mem_cons.mp hm with h | h
        · exact absurd h hta
        · exact h
      have hasne : as ≠ [] := List.ne_nil_of_mem hmas
      have hidx : List.indexOf t (a :: as) = List.indexOf t as + 1 := by
        simp [List.indexOf_cons, Ne.symm hta]
      have hgl : (a :: as).getLastD 0 = as.getLastD 0 := by
        rw [List.getLastD_eq_getLast?, List.getLastD_eq_getLast?,
          List.getLast?_eq_getLast _ (by simp), List.getLast?_eq_getLast as hasne,
          Option.getD_some, Option.getD_some, List.getLast_cons hasne]
      have her : (a :: as).erase t = a :: as.erase t := by
        rw [List.erase_cons, if_neg (by simp [Ne.symm hta])]
      unfold removeOwnedToken
      rw [hidx, hgl, her]
      show ((a :: as.set (List.indexOf t as) (as.getLastD 0)).dropLast).Perm (a :: as.erase t)
      have hLne : as.set (List.indexOf t as) (as.getLastD 0) ≠ [] := by
        intro hc
        have := congrArg List.length hc
        rw [List.length_set] at this
        exact hasne (List.length_eq_zero.mp this)
      obtain ⟨c, cs, hccs⟩ := List.exists_cons_of_ne_nil hLne
      rw [hccs, List.dropLast_cons₂, ← hccs]
      exact (ih t hnd.2 hmas).cons a

theorem mem_removeOwnedToken {l : List Nat} {t x : Nat} (hnd : l.Nodup) (hm : t ∈ l) :
    x ∈ removeOwnedToken l t ↔ x ∈ l ∧ x ≠ t := by
  rw [(removeOwnedToken_perm_erase l t hnd hm).mem_iff, hnd.mem_erase_iff]
  tauto

theorem nodup_removeOwnedToken {l : List Nat} {t : Nat} (hnd : l.Nodup) (hm : t ∈ l) :
    (removeOwnedToken l t).Nodup :=
  ((removeOwnedToken_perm_erase l t hnd hm).nodup_iff).mpr (hnd.erase t)

/-! ### Success characterizations of the contract operations -/

theorem registerDrug_ok {s : State} {sender : Address}
    {batchId drugName manufacturer ipfsHash : String} {expiryDate now : Nat}
    {s' : State} {tid : Nat}
    (h : registerDrug s sender batchId drugName manufacturer expiryDate ipfsHash now
      = .ok (s', tid)) :
    batchId.length ≠ 0 ∧ drugName.length ≠ 0 ∧ manufacturer.length ≠ 0 ∧
    now < expiryDate ∧ s.batchIdToTokenId batchId = 0 ∧ sender ≠ 0 ∧
    s.owners (s.tokenCounter + 1) = 0 ∧ tid = s.tokenCounter + 1 ∧
    s'.tokenCounter = tid ∧
    (∀ t, s'.owners t = if t = tid then sender else s.owners t) ∧
    (∀ a, s'.ownedTokens a =
      if a = sender then s.ownedTokens sender ++ [tid] else s.ownedTokens a) ∧
    (∀ t, s'.drugs t = if t = tid then
        ⟨batchId, drugName, manufacturer, expiryDate, ipfsHash, sender, now, true⟩
      else s.drugs t) ∧
    (∀ c, s'.batchIdToTokenId c =
      if c = batchId then tid else s.batchIdToTokenId c) ∧
    (∀ t, s'.drugHistory t = if t = tid then
        s.drugHistory tid ++ [⟨0, sender, now, "manufacture"⟩] else s.drugHistory t) ∧
    s'.userRoles = s.userRoles ∧ s'.contractOwner = s.contractOwner := by
  by_cases h1 : batchId.length = 0
  · simp [registerDrug, h1] at h
  by_cases h2 : drugName.length = 0
  · simp [registerDrug, h1, h2] at h
  by_cases h3 : manufacturer.length = 0
  · simp [registerDrug, h1, h2, h3] at h
  by_cases h4 : expiryDate > now
  case neg => simp [registerDrug, h1, h2, h3, h4] at h
  by_cases h5 : s.batchIdToTokenId batchId = 0
  case neg => simp [registerDrug, h1, h2, h3, h4, h5] at h
  by_cases h6 : sender = 0
  · simp [registerDrug, safeMint, h1, h2, h3, h4, h5, h6] at h
  by_cases h7 : s.owners (s.tokenCounter + 1) = 0
  case neg => simp [registerDrug, safeMint, h1, h2, h3, h4, h5, h6, h7] at h
  simp only [registerDrug, safeMint, h1, h2, h3, h4, h5, h6, h7] at h
  simp only [ne_eq, not_true_eq_false, not_false_eq_true, gt_iff_lt, not_lt,
    if_true, if_false, ite_true, ite_false, reduceIte] at h
  rw [Except.ok.injEq, Prod.mk.injEq] at h
  obtain ⟨hs, ht⟩ := h
  subst hs
  subst ht
  refine ⟨h1, h2, h3, h4, h5, h6, h7, rfl, rfl, ?_, ?_, ?_, ?_, ?_, rfl, rfl⟩ <;>
    intro x <;> rfl

end DrugAuth

namespace DrugAuth

theorem transferOwnership_ok {s : State} {sender : Address} {tokenId : Nat}
    {toA : Address} {eventType : String} {now : Nat} {s' : State} {ev : TransferEvent}
    (h : transferOwnership s sender tokenId toA eventType now = .ok (s', ev)) :
    s.owners tokenId = sender ∧ sender ≠ 0 ∧ toA ≠ 0 ∧ toA ≠ sender ∧
    (s.drugs tokenId).isActive = true ∧ now < (s.drugs tokenId).expiryDate ∧
    ev = ⟨sender, toA, now, eventType⟩ ∧
    s'.tokenCounter = s.tokenCounter ∧
    (∀ t, s'.owners t = if t = tokenId then toA else s.owners t) ∧
    (∀ a, s'.ownedTokens a = if a = toA then s.ownedTokens toA ++ [tokenId]
      else if a = sender then removeOwnedToken (s.ownedTokens sender) tokenId
      else s.ownedTokens a) ∧
    (∀ t, s'.drugs t = if t = tokenId then
        { s.drugs tokenId with currentOwner := toA } else s.drugs t) ∧
    s'.batchIdToTokenId = s.batchIdToTokenId ∧
    (∀ t, s'.drugHistory t = if t = tokenId then
        s.drugHistory tokenId ++ [ev] else s.drugHistory t) ∧
    s'.userRoles = s.userRoles ∧ s'.contractOwner = s.contractOwner := by
  by_cases h0 : s.owners tokenId = 0
  · simp [transferOwnership, ownerOf, h0] at h
  by_cases hsend : s.owners tokenId = sender
  case neg => simp [transferOwnership, ownerOf, if_neg h0, hsend] at h
  have hs0 : sender ≠ 0 := hsend ▸ h0
  by_cases h2 : toA = 0
  · simp [transferOwnership, ownerOf, if_neg h0, hsend, hs0, h2] at h
  by_cases h3 : toA = sender
  · rw [← hsend] at h3
    simp [transferOwnership, ownerOf, if_neg h0, hsend, hs0, h2, h3] at h
  by_cases h4 : (s.drugs tokenId).isActive
  case neg => simp [transferOwnership, ownerOf, if_neg h0, hsend, hs0, h2, h3, h4] at h
  by_cases h5 : (s.drugs tokenId).expiryDate > now
  case neg => simp [transferOwnership, ownerOf, if_neg h0, hsend, hs0, h2, h3, h4, h5] at h
  have h3' : toA ≠ s.owners tokenId := by rw [hsend]; exact h3
  simp only [transferOwnership, ownerOf, if_neg h0, hsend, hs0, h2, h3, h3', h4, h5,
    ne_eq, not_true_eq_false, not_false_eq_true, gt_iff_lt, not_lt, if_true,
    if_false, ite_true, ite_false, eq_self_iff_true, reduceIte] at h
  rw [Except.ok.injEq, Prod.mk.injEq] at h
  obtain ⟨hs, hev⟩ := h
  subst hs
  subst hev
  refine ⟨hsend, hs0, h2, h3, h4, h5, rfl, rfl, ?_, ?_, ?_, rfl, ?_, rfl, rfl⟩
  · intro t
    rfl
  · intro a
    by_cases ha1 : a = toA <;> by_cases ha2 : a = sender <;>
      simp_all [erc721Transfer]
  · intro t
    by_cases ht : t = tokenId <;> simp [ht, erc721Transfer, hsend]
  · intro t
    by_cases ht : t = tokenId <;> simp [ht, erc721Transfer, hsend]

theorem deactivateDrug_ok {s : State} {sender : Address} {tokenId : Nat} {s' : State}
    (h : deactivateDrug s sender tokenId = .ok s') :
    s.owners tokenId = sender ∧ sender ≠ 0 ∧
    (∀ t, s'.drugs t = if t = tokenId then
        { s.drugs tokenId with isActive := false } else s.drugs t) ∧
    s'.tokenCounter = s.tokenCounter ∧ s'.owners = s.owners ∧
    s'.ownedTokens = s.ownedTokens ∧ s'.batchIdToTokenId = s.batchIdToTokenId ∧
    s'.drugHistory = s.drugHistory ∧ s'.userRoles = s.userRoles ∧
    s'.contractOwner = s.contractOwner := by
  by_cases h0 : s.owners tokenId = 0
  · simp [deactivateDrug, ownerOf, h0] at h
  by_cases hsend : s.owners tokenId = sender
  case neg => simp [deactivateDrug, ownerOf, if_neg h0, hsend] at h
  have hs0 : sender ≠ 0 := hsend ▸ h0
  simp only [deactivateDrug, ownerOf, if_neg h0, hsend, hs0, ne_eq, not_true_eq_false,
    not_false_eq_true, eq_self_iff_true, if_false, ite_false, if_true, ite_true,
    reduceIte] at h
  rw [Except.ok.injEq] at h
  subst h
  exact ⟨hsend, hs0, fun t => rfl, rfl, rfl, rfl, rfl, rfl, rfl, rfl⟩

theorem assignRole_ok {s : State} {sender user : Address} {role : String} {s' : State}
    (h : assignRole s sender user role = .ok s') :
    sender = s.contractOwner ∧
    (∀ a, s'.userRoles a = if a = user then role else s.userRoles a) ∧
    s'.tokenCounter = s.tokenCounter ∧ s'.owners = s.owners ∧
    s'.ownedTokens = s.ownedTokens ∧ s'.drugs = s.drugs ∧
    s'.batchIdToTokenId = s.batchIdToTokenId ∧ s'.drugHistory = s.drugHistory ∧
    s'.contractOwner = s.contractOwner := by
  by_cases h0 : sender = s.contractOwner
  case neg => simp [assignRole, h0] at h
  simp only [assignRole, h0, ne_eq, not_true_eq_false, if_false, ite_false,
    reduceIte] at h
  rw [Except.ok.injEq] at h
  subst h
  exact ⟨h0, fun a => rfl, rfl, rfl, rfl, rfl, rfl, rfl, rfl⟩

end DrugAuth

namespace DrugAuth

theorem wf_initialState (d : Address) : WF (initialState d) := by
  refine ⟨?_, ?_, ?_, ?_, ?_, ?_, ?_, ?_, ?_, ?_, ?_⟩ <;>
    (intros; simp_all [initialState])

theorem wf_register {s s' : State} {sender : Address}
    {batchId drugName manufacturer ipfsHash : String} {expiryDate now : Nat} {tid : Nat}
    (hwf : WF s)
    (hreg : registerDrug s sender batchId drugName manufacturer expiryDate ipfsHash now
      = .ok (s', tid)) : WF s' := by
  obtain ⟨hb, -, -, -, hcode0, hs0, hfresh, htid, hcnt, hown, howned, hdrugs, hcodes,
    hhist, -, -⟩ := registerDrug_ok hreg
  subst htid
  have hboundN : ∀ t, s.owners t ≠ 0 → t ≠ s.tokenCounter + 1 := by
    intro t ht hc
    have := (hwf.counter_bound t ht).2
    omega
  refine ⟨?_, ?_, ?_, ?_, ?_, ?_, ?_, ?_, ?_, ?_, ?_⟩
  · -- counter_bound
    intro t ht
    rw [hown t] at ht
    rw [hcnt]
    by_cases h : t = s.tokenCounter + 1
    · omega
    · rw [if_neg h] at ht
      have := hwf.counter_bound t ht
      omega
  · -- owned_owner
    intro a t ht
    rw [howned a] at ht
    rw [hown t]
    by_cases ha : a = sender
    · rw [if_pos ha] at ht
      rcases List.mem_append.mp ht with hin | hin
      · have hold := hwf.owned_owner sender t hin
        rw [if_neg (hboundN t (by rw [hold.1]; exact hold.2))]
        rw [ha]
        exact hold
      · simp only [List.mem_singleton] at hin
        subst hin
        rw [if_pos rfl, ha]
        exact ⟨rfl, hs0⟩
    · rw [if_neg ha] at ht
      have hold := hwf.owned_owner a t ht
      rw [if_neg (hboundN t (by rw [hold.1]; exact hold.2))]
      exact hold
  · -- owner_owned
    intro t ht
    rw [hown t] at ht ⊢
    by_cases h : t = s.tokenCounter + 1
    · subst h
      rw [if_pos rfl] at ht ⊢
      rw [howned sender, if_pos rfl]
      exact List.mem_append_right _ (List.mem_singleton_self _)
    · rw [if_neg h] at ht ⊢
      have hold := hwf.owner_owned t ht
      rw [howned (s.owners t)]
      by_cases ha : s.owners t = sender
      · rw [if_pos ha, ← ha]
        exact List.mem_append_left _ hold
      · rw [if_neg ha]
        exact hold
  · -- owned_nodup
    intro a
    rw [howned a]
    by_cases ha : a = sender
    · rw [if_pos ha]
      rw [List.nodup_append]
      refine ⟨hwf.owned_nodup sender, List.nodup_singleton _, ?_⟩
      intro x hx hx1
      simp only [List.mem_singleton] at hx1
      subst hx1
      have hold := hwf.owned_owner sender _ hx
      exact hboundN _ (by rw [hold.1]; exact hold.2) rfl
    · rw [if_neg ha]
      exact hwf.owned_nodup a
  · -- fresh_history
    intro t ht
    rw [hown t] at ht
    by_cases h : t = s.tokenCounter + 1
    · rw [if_pos h] at ht
      exact absurd ht hs0
    · rw [if_neg h] at ht
      rw [hhist t, if_neg h]
      exact hwf.fresh_history t ht
  · -- fresh_drug
    intro t ht
    rw [hown t] at ht
    by_cases h : t = s.tokenCounter + 1
    · rw [if_pos h] at ht
      exact absurd ht hs0
    · rw [if_neg h] at ht
      rw [hdrugs t, if_neg h]
      exact hwf.fresh_drug t ht
  · -- hist_head
    intro t ht
    rw [hown t] at ht
    rw [hhist t]
    by_cases h : t = s.tokenCounter + 1
    · subst h
      rw [if_pos rfl, hwf.fresh_history _ hfresh]
      exact ⟨⟨0, sender, now, "manufacture"⟩, [], rfl, rfl, rfl⟩
    · rw [if_neg h] at ht ⊢
      exact hwf.hist_head t ht
  · -- owner_sync
    intro t ht
    rw [hown t] at ht
    rw [hdrugs t, hown t]
    by_cases h : t = s.tokenCounter + 1
    · rw [if_pos h, if_pos h]
    · rw [if_neg h, if_neg h]
      rw [if_neg h] at ht
      exact hwf.owner_sync t ht
  · -- last_to
    intro t ev ht hlast
    rw [hown t] at ht
    rw [hhist t] at hlast
    rw [hdrugs t]
    by_cases h : t = s.tokenCounter + 1
    · subst h
      rw [if_pos rfl, hwf.fresh_history _ hfresh, List.nil_append] at hlast
      rw [if_pos rfl]
      simp only [List.getLast?_singleton, Option.some.injEq] at hlast
      subst hlast
      rfl
    · rw [if_neg h] at ht hlast ⊢
      exact hwf.last_to t ev ht hlast
  · -- code_token
    intro c hc
    rw [hcodes c] at hc ⊢
    by_cases h : c = batchId
    · rw [if_pos h] at hc ⊢
      rw [hown _, if_pos rfl, hdrugs _, if_pos rfl]
      exact ⟨hs0, h.symm⟩
    · rw [if_neg h] at hc ⊢
      have hold := hwf.code_token c hc
      have hne := hboundN _ hold.1
      rw [hown _, if_neg hne, hdrugs _, if_neg hne]
      exact hold
  · -- token_code
    intro t ht
    rw [hown t] at ht
    rw [hdrugs t]
    by_cases h : t = s.tokenCounter + 1
    · subst h
      rw [if_pos rfl]
      refine ⟨by intro he; apply hb; rw [show batchId = "" from he]; rfl, ?_⟩
      rw [hcodes _]
      simp
    · rw [if_neg h] at ht ⊢
      have hold := hwf.token_code t ht
      refine ⟨hold.1, ?_⟩
      rw [hcodes _]
      have hne2 : (s.drugs t).batchId ≠ batchId := by
        intro he
        have h2 := hold.2
        rw [he, hcode0] at h2
        have h3 := hwf.counter_bound t ht
        omega
      rw [if_neg hne2, hold.2]

end DrugAuth

namespace DrugAuth

theorem WF.congr {s s' : State} (hwf : WF s)
    (hcnt : s'.tokenCounter = s.tokenCounter) (hown : s'.owners = s.owners)
    (howned : s'.ownedTokens = s.ownedTokens) (hdrugs : s'.drugs = s.drugs)
    (hcodes : s'.batchIdToTokenId = s.batchIdToTokenId)
    (hhist : s'.drugHistory = s.drugHistory) : WF s' := by
  refine ⟨?_, ?_, ?_, ?_, ?_, ?_, ?_, ?_, ?_, ?_, ?_⟩ <;>
    simp only [hcnt, hown, howned, hdrugs, hcodes, hhist] <;>
    first
      | exact hwf.counter_bound
      | exact hwf.owned_owner
      | exact hwf.owner_owned
      | exact hwf.owned_nodup
      | exact hwf.fresh_history
      | exact hwf.fresh_drug
      | exact hwf.hist_head
      | exact hwf.owner_sync
      | exact hwf.last_to
      | exact hwf.code_token
      | exact hwf.token_code

theorem wf_transfer {s s' : State} {sender : Address} {tokenId : Nat} {toA : Address}
    {eventType : String} {now : Nat} {ev : TransferEvent} (hwf : WF s)
    (htr : transferOwnership s sender tokenId toA eventType now = .ok (s', ev)) :
    WF s' := by
  obtain ⟨hsend, hs0, h2, h3, -, -, hev, hcnt, hown, howned, hdrugs, hcodes, hhist,
    -, -⟩ := transferOwnership_ok htr
  have hsne : s.owners tokenId ≠ 0 := by rw [hsend]; exact hs0
  have hnodup := hwf.owned_nodup sender
  have htok_mem : tokenId ∈ s.ownedTokens sender := by
    have := hwf.owner_owned tokenId hsne
    rwa [hsend] at this
  refine ⟨?_, ?_, ?_, ?_, ?_, ?_, ?_, ?_, ?_, ?_, ?_⟩
  · -- counter_bound
    intro t ht
    rw [hown t] at ht
    rw [hcnt]
    by_cases h : t = tokenId
    · subst h
      exact hwf.counter_bound t hsne
    · rw [if_neg h] at ht
      exact hwf.counter_bound t ht
  · -- owned_owner
    intro a t ht
    rw [howned a] at ht
    rw [hown t]
    by_cases ha : a = toA
    · rw [if_pos ha] at ht
      rcases List.mem_append.mp ht with hin | hin
      · have hold := hwf.owned_owner toA t hin
        have htne : t ≠ tokenId := by
          intro hc
          subst hc
          apply h3
          rw [← hold.1, hsend]
        rw [if_neg htne, ha]
        exact hold
      · simp only [List.mem_singleton] at hin
        subst hin
        rw [if_pos rfl, ha]
        exact ⟨rfl, h2⟩
    · rw [if_neg ha] at ht
      by_cases ha2 : a = sender
      · rw [if_pos ha2] at ht
        rw [mem_removeOwnedToken hnodup htok_mem] at ht
        obtain ⟨hin, hne⟩ := ht
        have hold := hwf.owned_owner sender t hin
        rw [if_neg hne, ha2]
        exact hold
      · rw [if_neg ha2] at ht
        have hold := hwf.owned_owner a t ht
        have htne : t ≠ tokenId := by
          intro hc
          subst hc
          apply ha2
          rw [← hold.1, hsend]
        rw [if_neg htne]
        exact hold
  · -- owner_owned
    intro t ht
    rw [hown t] at ht ⊢
    by_cases h : t = tokenId
    · subst h
      rw [if_pos rfl]
      rw [howned toA, if_pos rfl]
      exact List.mem_append_right _ (List.mem_singleton_self _)
    · rw [if_neg h] at ht ⊢
      have hold := hwf.owner_owned t ht
      rw [howned (s.owners t)]
      by_cases hb1 : s.owners t = toA
      · rw [if_pos hb1, ← hb1]
        exact List.mem_append_left _ hold
      · rw [if_neg hb1]
        by_cases hb2 : s.owners t = sender
        · rw [if_pos hb2]
          rw [mem_removeOwnedToken hnodup htok_mem]
          rw [hb2] at hold
          exact ⟨hold, h⟩
        · rw [if_neg hb2]
          exact hold
  · -- owned_nodup
    intro a
    rw [howned a]
    by_cases ha : a = toA
    · rw [if_pos ha]
      rw [List.nodup_append]
      refine ⟨hwf.owned_nodup toA, List.nodup_singleton _, ?_⟩
      intro x hx hx1
      simp only [List.mem_singleton] at hx1
      subst hx1
      have hold := hwf.owned_owner toA _ hx
      apply h3
      rw [← hold.1, hsend]
    · rw [if_neg ha]
      by_cases ha2 : a = sender
      · rw [if_pos ha2]
        exact nodup_removeOwnedToken hnodup htok_mem
      · rw [if_neg ha2]
        exact hwf.owned_nodup a
  · -- fresh_history
    intro t ht
    rw [hown t] at ht
    by_cases h : t = tokenId
    · rw [if_pos h] at ht
      exact absurd ht h2
    · rw [if_neg h] at ht
      rw [hhist t, if_neg h]
      exact hwf.fresh_history t ht
  · -- fresh_drug
    intro t ht
    rw [hown t] at ht
    by_cases h : t = tokenId
    · rw [if_pos h] at ht
      exact absurd ht h2
    · rw [if_neg h] at ht
      rw [hdrugs t, if_neg h]
      exact hwf.fresh_drug t ht
  · -- hist_head
    intro t ht
    rw [hhist t]
    by_cases h : t = tokenId
    · subst h
      rw [if_pos rfl]
      obtain ⟨ev0, rest, heq, hf, hety⟩ := hwf.hist_head t hsne
      exact ⟨ev0, rest ++ [ev], by rw [heq]; rfl, hf, hety⟩
    · rw [if_neg h]
      rw [hown t, if_neg h] at ht
      exact hwf.hist_head t ht
  · -- owner_sync
    intro t ht
    rw [hown t] at ht ⊢
    rw [hdrugs t]
    by_cases h : t = tokenId
    · rw [if_pos h, if_pos h]
    · rw [if_neg h, if_neg h]
      rw [if_neg h] at ht
      exact hwf.owner_sync t ht
  · -- last_to
    intro t lev ht hlast
    rw [hhist t] at hlast
    rw [hdrugs t]
    by_cases h : t = tokenId
    · rw [if_pos h] at hlast
      rw [if_pos h]
      rw [List.getLast?_concat] at hlast
      rw [Option.some.injEq] at hlast
      subst hlast
      rw [hev]
    · rw [if_neg h] at hlast
      rw [if_neg h]
      rw [hown t, if_neg h] at ht
      exact hwf.last_to t lev ht hlast
  · -- code_token
    intro c hc
    rw [hcodes] at hc ⊢
    have hold := hwf.code_token c hc
    rw [hown _, hdrugs _]
    by_cases h : s.batchIdToTokenId c = tokenId
    · rw [if_pos h, if_pos h]
      refine ⟨h2, ?_⟩
      rw [← h]
      exact hold.2
    · rw [if_neg h, if_neg h]
      exact hold
  · -- token_code
    intro t ht
    rw [hown t] at ht
    rw [hdrugs t, hcodes]
    by_cases h : t = tokenId
    · subst h
      rw [if_pos rfl]
      exact hwf.token_code t hsne
    · rw [if_neg h]
      rw [if_neg h] at ht
      exact hwf.token_code t ht

theorem wf_deactivate {s s' : State} {sender : Address} {tokenId : Nat} (hwf : WF s)
    (h : deactivateDrug s sender tokenId = .ok s') : WF s' := by
  obtain ⟨hsend, hs0, hdrugs, hcnt, hown, howned, hcodes, hhist, -, -⟩ :=
    deactivateDrug_ok h
  refine ⟨?_, ?_, ?_, ?_, ?_, ?_, ?_, ?_, ?_, ?_, ?_⟩
  · intro t ht
    rw [hown] at ht
    rw [hcnt]
    exact hwf.counter_bound t ht
  · intro a t ht
    rw [howned] at ht
    rw [hown]
    exact hwf.owned_owner a t ht
  · intro t ht
    rw [hown] at ht ⊢
    rw [howned]
    exact hwf.owner_owned t ht
  · intro a
    rw [howned]
    exact hwf.owned_nodup a
  · intro t ht
    rw [hown] at ht
    rw [hhist]
    exact hwf.fresh_history t ht
  · intro t ht
    rw [hown] at ht
    rw [hdrugs t]
    have : t ≠ tokenId := by
      intro hc
      subst hc
      rw [ht] at hsend
      exact hs0 hsend.symm
    rw [if_neg this]
    exact hwf.fresh_drug t ht
  · intro t ht
    rw [hown] at ht
    rw [hhist]
    exact hwf.hist_head t ht
  · intro t ht
    rw [hown] at ht ⊢
    rw [hdrugs t]
    by_cases hh : t = tokenId
    · subst hh
      rw [if_pos rfl]
      show (s.drugs t).currentOwner = s.owners t
      exact hwf.owner_sync t ht
    · rw [if_neg hh]
      exact hwf.owner_sync t ht
  · intro t lev ht hlast
    rw [hown] at ht
    rw [hhist] at hlast
    rw [hdrugs t]
    by_cases hh : t = tokenId
    · subst hh
      rw [if_pos rfl]
      show lev.to_ = (s.drugs t).currentOwner
      exact hwf.last_to t lev ht hlast
    · rw [if_neg hh]
      exact hwf.last_to t lev ht hlast
  · intro c hc
    rw [hcodes] at hc ⊢
    have hold := hwf.code_token c hc
    rw [hown, hdrugs _]
    by_cases hh : s.batchIdToTokenId c = tokenId
    · rw [if_pos hh]
      refine ⟨hold.1, ?_⟩
      show (s.drugs tokenId).batchId = c
      rw [← hh]
      exact hold.2
    · rw [if_neg hh]
      exact hold
  · intro t ht
    rw [hown] at ht
    rw [hdrugs t, hcodes]
    by_cases hh : t = tokenId
    · subst hh
      rw [if_pos rfl]
      show (s.drugs t).batchId ≠ "" ∧ s.batchIdToTokenId (s.drugs t).batchId = t
      exact hwf.token_code t ht
    · rw [if_neg hh]
      exact hwf.token_code t ht

theorem wf_assign {s s' : State} {sender user : Address} {role : String} (hwf : WF s)
    (h : assignRole s sender user role = .ok s') : WF s' := by
  obtain ⟨-, -, hcnt, hown, howned, hdrugs, hcodes, hhist, -⟩ := assignRole_ok h
  exact hwf.congr hcnt hown howned hdrugs hcodes hhist

theorem wf_applyOp {s : State} (hwf : WF s) (op : Op) : WF (applyOp s op) := by
  cases op with
  | register sender b d m e i now =>
    cases hreg : registerDrug s sender b d m e i now with
    | error err => simp only [applyOp, hreg]; exact hwf
    | ok p =>
      obtain ⟨s', tid⟩ := p
      simp only [applyOp, hreg]
      exact wf_register hwf hreg
  | transfer sender tokenId toA et now =>
    cases htr : transferOwnership s sender tokenId toA et now with
    | error err => simp only [applyOp, htr]; exact hwf
    | ok p =>
      obtain ⟨s', ev⟩ := p
      simp only [applyOp, htr]
      exact wf_transfer hwf htr
  | deactivate sender tokenId =>
    cases hd : deactivateDrug s sender tokenId with
    | error err => simp only [applyOp, hd]; exact hwf
    | ok s' => simp only [applyOp, hd]; exact wf_deactivate hwf hd
  | assign sender user role =>
    cases ha : assignRole s sender user role with
    | error err => simp only [applyOp, ha]; exact hwf
    | ok s' => simp only [applyOp, ha]; exact wf_assign hwf ha

theorem wf_execOps (deployer : Address) (ops : List Op) : WF (execOps deployer ops) := by
  induction ops using List.reverseRecOn with
  | nil => exact wf_initialState deployer
  | append_singleton ops op ih =>
    rw [execOps, List.foldl_append, List.foldl_cons, List.foldl_nil]
    exact wf_applyOp ih op

theorem wf_reachable {s : State} (h : Reachable s) : WF s := by
  obtain ⟨d, ops, -, rfl⟩ := h
  exact wf_execOps d ops

end DrugAuth

namespace DrugAuth

/-- Whether a call is a role assignment targeting `user` (used to state
"never assigned a role"). -/
def assignsTo : Op → Address → Bool
  | .assign _ u _, user => u = user
  | _, _ => false

theorem userRoles_applyOp (s : State) (op : Op) (identity : Address)
    (h : assignsTo op identity = false) :
    (applyOp s op).userRoles identity = s.userRoles identity := by
  cases op with
  | register sender b d m e i now =>
    cases hreg : registerDrug s sender b d m e i now with
    | error err => simp only [applyOp, hreg]
    | ok p =>
      obtain ⟨s', tid⟩ := p
      simp only [applyOp, hreg]
      obtain ⟨-, -, -, -, -, -, -, -, -, -, -, -, -, -, hroles, -⟩ := registerDrug_ok hreg
      rw [hroles]
  | transfer sender tokenId toA et now =>
    cases htr : transferOwnership s sender tokenId toA et now with
    | error err => simp only [applyOp, htr]
    | ok p =>
      obtain ⟨s', ev⟩ := p
      simp only [applyOp, htr]
      obtain ⟨-, -, -, -, -, -, -, -, -, -, -, -, -, hroles, -⟩ := transferOwnership_ok htr
      rw [hroles]
  | deactivate sender tokenId =>
    cases hd : deactivateDrug s sender tokenId with
    | error err => simp only [applyOp, hd]
    | ok s' =>
      simp only [applyOp, hd]
      obtain ⟨-, -, -, -, -, -, -, -, hroles, -⟩ := deactivateDrug_ok hd
      rw [hroles]
  | assign sender user role =>
    cases ha : assignRole s sender user role with
    | error err => simp only [applyOp, ha]
    | ok s' =>
      simp only [applyOp, ha]
      obtain ⟨-, hroles, -, -, -, -, -, -, -⟩ := assignRole_ok ha
      have hne : user ≠ identity := by
        simpa [assignsTo] using h
      rw [hroles identity, if_neg fun hc => hne hc.symm]

end DrugAuth

/-- C10: in the state produced by the constructor, the deployer's identity is
already assigned the role `"manufacturer"` (neither the unset empty string
nor the default customer role), and every other identity is still unset, so
before any `assignRole` call only the deployer has a non-default role. -/
theorem C10_deployer_premapped_role (d a : DrugAuth.Address) (h : a ≠ d) :
    DrugAuth.getUserRole (DrugAuth.initialState d) d = "manufacturer" ∧
    DrugAuth.getUserRole (DrugAuth.initialState d) d ≠ "" ∧
    DrugAuth.getUserRole (DrugAuth.initialState d) d ≠ "customer" ∧
    DrugAuth.getUserRole (DrugAuth.initialState d) a = "" := by
  refine ⟨?_, ?_, ?_, ?_⟩
  · simp [DrugAuth.getUserRole, DrugAuth.initialState]
  · simp [DrugAuth.getUserRole, DrugAuth.initialState]
  · simp [DrugAuth.getUserRole, DrugAuth.initialState]
  · simp [DrugAuth.getUserRole, DrugAuth.initialState, h]

/-- Witness for C10 at a concrete deployment. -/
theorem C10_deployer_premapped_role_witness :
    DrugAuth.getUserRole (DrugAuth.initialState 1) 1 = "manufacturer" ∧
    DrugAuth.getUserRole (DrugAuth.initialState 1) 1 ≠ "" ∧
    DrugAuth.getUserRole (DrugAuth.initialState 1) 1 ≠ "customer" ∧
    DrugAuth.getUserRole (DrugAuth.initialState 1) 2 = "" :=
  C10_deployer_premapped_role 1 2 (by decide)

/-- C7 as stated fails on the code: for an identity never assigned a role,
`getUserRole` returns the Solidity mapping default — the empty string — and
not `"customer"` (here on a fresh deployment by `1`, querying identity `2`,
which no call has ever assigned). -/
theorem C7_counterexample :
    DrugAuth.getUserRole (DrugAuth.initialState 1) 2 = "" ∧
    DrugAuth.getUserRole (DrugAuth.initialState 1) 2 ≠ "customer" := by
  constructor
  · rfl
  · decide

/-- C7 amended: for every identity that has never been assigned a role (and
is not the deployer, whom the constructor pre-assigns), `getUserRole`
returns the empty string — the mapping's "unset" value, which the spec
abstracts as the default Customer role — and never errors; and after
`assignRole` by the admin (the contract owner), `getUserRole` returns
exactly that role, overwriting any previous assignment. -/
theorem C7_amended_default_and_overwrite (d : DrugAuth.Address) (ops : List DrugAuth.Op)
    (identity : DrugAuth.Address) (hd : identity ≠ d)
    (hna : ∀ op ∈ ops, DrugAuth.assignsTo op identity = false) :
    DrugAuth.getUserRole (DrugAuth.execOps d ops) identity = "" ∧
    (∀ (s : DrugAuth.State) (user : DrugAuth.Address) (role : String),
      ∃ s', DrugAuth.assignRole s s.contractOwner user role = .ok s' ∧
        DrugAuth.getUserRole s' user = role) := by
  constructor
  · induction ops using List.reverseRecOn with
    | nil =>
      simp [DrugAuth.execOps, DrugAuth.getUserRole, DrugAuth.initialState, hd]
    | append_singleton ops op ih =>
      have hops : ∀ o ∈ ops, DrugAuth.assignsTo o identity = false := by
        intro o ho
        exact hna o (List.mem_append_left _ ho)
      have hop : DrugAuth.assignsTo op identity = false :=
        hna op (List.mem_append_right _ (List.mem_singleton_self _))
      rw [DrugAuth.execOps, List.foldl_append, List.foldl_cons, List.foldl_nil]
      rw [DrugAuth.getUserRole,
        DrugAuth.userRoles_applyOp _ op identity hop]
      exact ih hops
  · intro s user role
    refine ⟨{ s with userRoles := fun a => if a = user then role else s.userRoles a },
      ?_, ?_⟩
    · rw [DrugAuth.assignRole, if_neg (by simp)]
    · simp [DrugAuth.getUserRole]

/-- Witness for the amended C7: after an unrelated role assignment, identity
`3` is still unset. -/
theorem C7_amended_default_and_overwrite_witness :
    DrugAuth.getUserRole
      (DrugAuth.execOps 1 [DrugAuth.Op.assign 1 2 "distributor"]) 3 = "" :=
  (C7_amended_default_and_overwrite 1 [DrugAuth.Op.assign 1 2 "distributor"] 3
    (by decide) (by decide)).1

/-- C4: in every reachable state, every registered batch's `currentOwner`
(the spec's `ownerIdentity`) equals the `to` identity of the most recent
entry of its audit log — the invariant is established at registration and
preserved by every operation. -/
theorem C4_owner_is_last_event_target (s : DrugAuth.State) (hr : DrugAuth.Reachable s)
    (t : Nat) (hreg : s.owners t ≠ 0) (lev : DrugAuth.TransferEvent)
    (hlast : (s.drugHistory t).getLast? = some lev) :
    (s.drugs t).currentOwner = lev.to_ :=
  ((DrugAuth.wf_reachable hr).last_to t lev hreg hlast).symm

/-- Witness for C4 after a registration followed by a transfer. -/
theorem C4_owner_is_last_event_target_witness :
    (((DrugAuth.execOps 1 [DrugAuth.Op.register 1 "B" "N" "M" 100 "h" 0,
        DrugAuth.Op.transfer 1 1 2 "transfer" 5]).drugs 1).currentOwner
      = (⟨1, 2, 5, "transfer"⟩ : DrugAuth.TransferEvent).to_) :=
  C4_owner_is_last_event_target _ ⟨1, _, by decide, rfl⟩ 1 (by decide) _ (by rfl)

/-- C3: in every reachable state each registered batch's history is
nonempty with first entry `{from := 0, eventType := "manufacture"}`, and a
successful registration seeds the new batch's history with exactly that one
manufacture event, whose `to` identity is the creator. -/
theorem C3_first_event_is_manufacture :
    (∀ (s : DrugAuth.State), DrugAuth.Reachable s →
      ∀ (t : Nat) (hist : List DrugAuth.TransferEvent),
        DrugAuth.getDrugHistory s t = .ok hist →
        hist ≠ [] ∧ ∀ h0, hist.head? = some h0 →
          h0.from_ = 0 ∧ h0.eventType = "manufacture") ∧
    (∀ (s : DrugAuth.State), DrugAuth.Reachable s →
      ∀ (sender : DrugAuth.Address) (b d m i : String) (e now : Nat)
        (s' : DrugAuth.State) (tid : Nat),
        DrugAuth.registerDrug s sender b d m e i now = .ok (s', tid) →
        DrugAuth.getDrugHistory s' tid = .ok [⟨0, sender, now, "manufacture"⟩]) := by
  constructor
  · intro s hr t hist hh
    have hwf := DrugAuth.wf_reachable hr
    by_cases h0 : s.owners t = 0
    · simp [DrugAuth.getDrugHistory, h0] at hh
    · rw [DrugAuth.getDrugHistory, if_neg h0, Except.ok.injEq] at hh
      obtain ⟨ev, rest, heq, hf, hety⟩ := hwf.hist_head t h0
      subst hh
      rw [heq]
      refine ⟨by simp, ?_⟩
      intro e0 he0
      rw [List.head?_cons, Option.some.injEq] at he0
      subst he0
      exact ⟨hf, hety⟩
  · intro s hr sender b d m i e now s' tid hreg
    have hwf := DrugAuth.wf_reachable hr
    obtain ⟨-, -, -, -, -, hs0, hfresh, htid, -, hown, -, -, -, hhist, -, -⟩ :=
      DrugAuth.registerDrug_ok hreg
    have hown' : s'.owners tid ≠ 0 := by
      rw [hown tid, htid, if_pos rfl]
      exact hs0
    rw [DrugAuth.getDrugHistory, if_neg hown', Except.ok.injEq]
    rw [hhist tid, if_pos rfl, htid, hwf.fresh_history _ hfresh, List.nil_append]

/-- Witness for C3 on a freshly registered batch. -/
theorem C3_first_event_is_manufacture_witness :
    DrugAuth.getDrugHistory
        (DrugAuth.execOps 1 [DrugAuth.Op.register 1 "B" "N" "M" 100 "h" 0]) 1
      = .ok [⟨0, 1, 0, "manufacture"⟩] ∧
    (⟨0, 1, 0, "manufacture"⟩ : DrugAuth.TransferEvent).from_ = 0 ∧
    (⟨0, 1, 0, "manufacture"⟩ : DrugAuth.TransferEvent).eventType = "manufacture" := by
  have happ := (C3_first_event_is_manufacture.1
    (DrugAuth.execOps 1 [DrugAuth.Op.register 1 "B" "N" "M" 100 "h" 0])
    ⟨1, _, by decide, rfl⟩ 1 [⟨0, 1, 0, "manufacture"⟩] (by rfl))
  exact ⟨by rfl, (happ.2 _ rfl).1, (happ.2 _ rfl).2⟩

/-- C1: on every reachable state, for a batch that exists, is active, is not
expired and whose current owner is the requester, a transfer to a non-empty
`newOwner` different from the current owner succeeds; afterwards the owner
field is `newOwner`, exactly one custody event `{from := previous owner,
to := newOwner, eventType}` is appended at the end of the history (length
grows by one), the owner index drops the batch for the previous owner and
lists it for `newOwner`, and the appended event is the one returned
(emitted). -/
theorem C1_transfer_success (s : DrugAuth.State) (hr : DrugAuth.Reachable s)
    (sender toA : DrugAuth.Address) (tokenId : Nat) (eventType : String) (now : Nat)
    (hex : s.owners tokenId ≠ 0)
    (hownr : (s.drugs tokenId).currentOwner = sender)
    (hact : (s.drugs tokenId).isActive = true)
    (hexp : now < (s.drugs tokenId).expiryDate)
    (hto0 : toA ≠ 0) (htos : toA ≠ sender) :
    ∃ s' ev, DrugAuth.transferOwnership s sender tokenId toA eventType now
        = .ok (s', ev) ∧
      ev = ⟨sender, toA, now, eventType⟩ ∧
      (s'.drugs tokenId).currentOwner = toA ∧
      s'.drugHistory tokenId = s.drugHistory tokenId ++ [ev] ∧
      (s'.drugHistory tokenId).length = (s.drugHistory tokenId).length + 1 ∧
      tokenId ∉ DrugAuth.getDrugsByOwner s' sender ∧
      tokenId ∈ DrugAuth.getDrugsByOwner s' toA := by
  have hwf := DrugAuth.wf_reachable hr
  have hown_t : s.owners tokenId = sender := by
    rw [← hwf.owner_sync tokenId hex]
    exact hownr
  have htok_mem : tokenId ∈ s.ownedTokens sender := by
    have := hwf.owner_owned tokenId hex
    rwa [hown_t] at this
  have hs0 : sender ≠ 0 := hown_t ▸ hex
  cases htr : DrugAuth.transferOwnership s sender tokenId toA eventType now with
  | error err =>
    exfalso
    revert htr
    simp [DrugAuth.transferOwnership, DrugAuth.ownerOf, hex, hown_t, hs0, htos,
      hto0, hact, hexp, Ne.symm htos]
  | ok p =>
    obtain ⟨s', ev⟩ := p
    obtain ⟨-, -, -, -, -, -, hev, -, -, howned, hdrugs, -, hhist, -, -⟩ :=
      DrugAuth.transferOwnership_ok htr
    refine ⟨s', ev, rfl, hev, ?_, ?_, ?_, ?_, ?_⟩
    · rw [hdrugs tokenId, if_pos rfl]
    · rw [hhist tokenId, if_pos rfl]
    · rw [hhist tokenId, if_pos rfl, List.length_append, List.length_singleton]
    · show tokenId ∉ s'.ownedTokens sender
      rw [howned sender, if_neg (Ne.symm htos), if_pos rfl]
      rw [DrugAuth.mem_removeOwnedToken (hwf.owned_nodup sender) htok_mem]
      simp
    · show tokenId ∈ s'.ownedTokens toA
      rw [howned toA, if_pos rfl]
      exact List.mem_append_right _ (List.mem_singleton_self _)

/-- Witness for C1: register by `1`, then transfer to `2`. -/
theorem C1_transfer_success_witness :
    ∃ s' ev, DrugAuth.transferOwnership
        (DrugAuth.execOps 1 [DrugAuth.Op.register 1 "B" "N" "M" 100 "h" 0])
        1 1 2 "transfer" 5 = .ok (s', ev) ∧
      ev = ⟨1, 2, 5, "transfer"⟩ ∧
      (s'.drugs 1).currentOwner = 2 ∧
      s'.drugHistory 1 = (DrugAuth.execOps 1
        [DrugAuth.Op.register 1 "B" "N" "M" 100 "h" 0]).drugHistory 1 ++ [ev] ∧
      (s'.drugHistory 1).length = ((DrugAuth.execOps 1
        [DrugAuth.Op.register 1 "B" "N" "M" 100 "h" 0]).drugHistory 1).length + 1 ∧
      1 ∉ DrugAuth.getDrugsByOwner s' 1 ∧
      1 ∈ DrugAuth.getDrugsByOwner s' 2 :=
  C1_transfer_success _ ⟨1, _, by decide, rfl⟩ 1 2 1 "transfer" 5
    (by decide) (by decide) (by decide) (by decide) (by decide) (by decide)

/-- C2: on every reachable state the transfer preconditions behave exactly
as the spec's ordered list — the first failing check in the spec's order
determines the error (each check mapped to its taxonomy kind and revert
reason by `specFailureErr`), a transfer with no failing check succeeds, and
a failing transfer leaves the state unchanged. In particular a non-owner
requester on an inactive batch gets the `AuthorizationError`, and an
inactive expired batch gets the "batch inactive" `StateError`.
(The code tests target-non-empty before target-differs-from-owner, but the
two orders are observably identical: an existing batch's owner is never the
zero address, so the two checks can never both fail.) -/
theorem C2_transfer_precondition_order (s : DrugAuth.State) (hr : DrugAuth.Reachable s)
    (sender toA : DrugAuth.Address) (tokenId now : Nat) (eventType : String) :
    (∀ f, DrugAuth.specTransferFailure s sender tokenId toA now = some f →
      DrugAuth.transferOwnership s sender tokenId toA eventType now
        = .error (DrugAuth.specFailureErr f) ∧
      DrugAuth.applyOp s (.transfer sender tokenId toA eventType now) = s) ∧
    (DrugAuth.specTransferFailure s sender tokenId toA now = none →
      ∃ s' ev, DrugAuth.transferOwnership s sender tokenId toA eventType now
        = .ok (s', ev)) := by
  have hwf := DrugAuth.wf_reachable hr
  by_cases h0 : s.owners tokenId = 0
  · constructor
    · intro f hf
      rw [DrugAuth.specTransferFailure, if_pos h0, Option.some.injEq] at hf
      subst hf
      have herr : DrugAuth.transferOwnership s sender tokenId toA eventType now
          = .error (.notFound "ERC721: invalid token ID") := by
        simp [DrugAuth.transferOwnership, DrugAuth.ownerOf, h0]
      exact ⟨herr, by simp [DrugAuth.applyOp, herr]⟩
    · intro hf
      rw [DrugAuth.specTransferFailure, if_pos h0] at hf
      cases hf
  have hsync : (s.drugs tokenId).currentOwner = s.owners tokenId :=
    hwf.owner_sync tokenId h0
  by_cases h1 : sender = (s.drugs tokenId).currentOwner
  case neg =>
    have h1' : sender ≠ (s.drugs tokenId).currentOwner := h1
    have hcode : s.owners tokenId ≠ sender := by
      rw [← hsync]
      exact fun hc => h1' hc.symm
    constructor
    · intro f hf
      rw [DrugAuth.specTransferFailure, if_neg h0, if_pos h1', Option.some.injEq] at hf
      subst hf
      have herr : DrugAuth.transferOwnership s sender tokenId toA eventType now
          = .error (.authorization "Not the token owner") := by
        simp [DrugAuth.transferOwnership, DrugAuth.ownerOf, h0, hcode]
      exact ⟨herr, by simp [DrugAuth.applyOp, herr]⟩
    · intro hf
      rw [DrugAuth.specTransferFailure, if_neg h0, if_pos h1] at hf
      cases hf
  case pos =>
  have hos : s.owners tokenId = sender := (h1.trans hsync).symm
  have hs0 : sender ≠ 0 := hos ▸ h0
  by_cases h2 : toA = (s.drugs tokenId).currentOwner
  · have htoo : toA = s.owners tokenId := h2.trans hsync
    have hto0 : toA ≠ 0 := htoo ▸ h0
    constructor
    · intro f hf
      rw [DrugAuth.specTransferFailure, if_neg h0, if_neg (not_not_intro h1),
        if_pos h2, Option.some.injEq] at hf
      subst hf
      have herr : DrugAuth.transferOwnership s sender tokenId toA eventType now
          = .error (.validation "Cannot transfer to current owner") := by
        simp [DrugAuth.transferOwnership, DrugAuth.ownerOf, h0, hos, hs0, hto0, htoo,
          hos ▸ htoo]
      exact ⟨herr, by simp [DrugAuth.applyOp, herr]⟩
    · intro hf
      rw [DrugAuth.specTransferFailure, if_neg h0, if_neg (not_not_intro h1),
        if_pos h2] at hf
      cases hf
  by_cases h3 : toA = 0
  · constructor
    · intro f hf
      rw [DrugAuth.specTransferFailure, if_neg h0, if_neg (not_not_intro h1),
        if_neg h2, if_pos h3, Option.some.injEq] at hf
      subst hf
      have herr : DrugAuth.transferOwnership s sender tokenId toA eventType now
          = .error (.validation "Cannot transfer to zero address") := by
        simp [DrugAuth.transferOwnership, DrugAuth.ownerOf, h0, hos, hs0, h3]
      exact ⟨herr, by simp [DrugAuth.applyOp, herr]⟩
    · intro hf
      rw [DrugAuth.specTransferFailure, if_neg h0, if_neg (not_not_intro h1),
        if_neg h2, if_pos h3] at hf
      cases hf
  have htoo : toA ≠ s.owners tokenId := by
    rw [← hsync]
    exact h2
  have htos : toA ≠ sender := hos ▸ htoo
  by_cases h4 : (s.drugs tokenId).isActive = false
  · constructor
    · intro f hf
      rw [DrugAuth.specTransferFailure, if_neg h0, if_neg (not_not_intro h1),
        if_neg h2, if_neg h3, if_pos h4, Option.some.injEq] at hf
      subst hf
      have herr : DrugAuth.transferOwnership s sender tokenId toA eventType now
          = .error (.state "Drug is not active") := by
        simp [DrugAuth.transferOwnership, DrugAuth.ownerOf, h0, hos, hs0, h3, htos,
          h4]
      exact ⟨herr, by simp [DrugAuth.applyOp, herr]⟩
    · intro hf
      rw [DrugAuth.specTransferFailure, if_neg h0, if_neg (not_not_intro h1),
        if_neg h2, if_neg h3, if_pos h4] at hf
      cases hf
  have hact : (s.drugs tokenId).isActive = true := by
    cases hb : (s.drugs tokenId).isActive
    · exact absurd hb h4
    · rfl
  by_cases h5 : (s.drugs tokenId).expiryDate > now
  case neg =>
    constructor
    · intro f hf
      rw [DrugAuth.specTransferFailure, if_neg h0, if_neg (not_not_intro h1),
        if_neg h2, if_neg h3, if_neg h4, if_pos h5, Option.some.injEq] at hf
      subst hf
      have herr : DrugAuth.transferOwnership s sender tokenId toA eventType now
          = .error (.state "Drug has expired") := by
        simp [DrugAuth.transferOwnership, DrugAuth.ownerOf, h0, hos, hs0, h3, htos,
          hact, h5]
      exact ⟨herr, by simp [DrugAuth.applyOp, herr]⟩
    · intro hf
      rw [DrugAuth.specTransferFailure, if_neg h0, if_neg (not_not_intro h1),
        if_neg h2, if_neg h3, if_neg h4, if_pos h5] at hf
      cases hf
  case pos =>
    constructor
    · intro f hf
      rw [DrugAuth.specTransferFailure, if_neg h0, if_neg (not_not_intro h1),
        if_neg h2, if_neg h3, if_neg h4, if_neg (not_not_intro h5)] at hf
      cases hf
    · intro _hnone
      cases htr : DrugAuth.transferOwnership s sender tokenId toA eventType now with
      | error err =>
        exfalso
        revert htr
        simp [DrugAuth.transferOwnership, DrugAuth.ownerOf, h0, hos, hs0, h3, htos,
          hact, h5]
      | ok p =>
        exact ⟨p.1, p.2, by rw [← htr]⟩

/-- Witness for C2: on a fresh batch owned by `1`, a transfer request by
non-owner `3` fails the spec's second check with the authorization error and
mutates nothing. -/
theorem C2_transfer_precondition_order_witness :
    DrugAuth.specTransferFailure
      (DrugAuth.execOps 1 [DrugAuth.Op.register 1 "B" "N" "M" 100 "h" 0]) 3 1 4 5
      = some .notOwner ∧
    DrugAuth.transferOwnership
      (DrugAuth.execOps 1 [DrugAuth.Op.register 1 "B" "N" "M" 100 "h" 0])
      3 1 4 "transfer" 5
      = .error (DrugAuth.specFailureErr .notOwner) ∧
    DrugAuth.applyOp
      (DrugAuth.execOps 1 [DrugAuth.Op.register 1 "B" "N" "M" 100 "h" 0])
      (.transfer 3 1 4 "transfer" 5)
      = DrugAuth.execOps 1 [DrugAuth.Op.register 1 "B" "N" "M" 100 "h" 0] := by
  have happ := (C2_transfer_precondition_order
    (DrugAuth.execOps 1 [DrugAuth.Op.register 1 "B" "N" "M" 100 "h" 0])
    ⟨1, _, by decide, rfl⟩ 3 4 1 5 "transfer").1 .notOwner (by decide)
  exact ⟨by decide, happ.1, happ.2⟩

namespace DrugAuth

theorem drug_setInactive_eq {d : Drug} (h : d.isActive = false) :
    ({ d with isActive := false } : Drug) = d := by
  cases d
  simp_all

theorem inactive_step {s : State} (hwf : WF s) {tokenId : Nat}
    (hex : s.owners tokenId ≠ 0) (hina : (s.drugs tokenId).isActive = false)
    (op : Op) :
    ((applyOp s op).drugs tokenId).isActive = false ∧
    (applyOp s op).drugHistory tokenId = s.drugHistory tokenId ∧
    (applyOp s op).owners tokenId = s.owners tokenId := by
  cases op with
  | register sender b d m e i now =>
    cases hreg : registerDrug s sender b d m e i now with
    | error err => simp only [applyOp, hreg]; exact ⟨hina, trivial, trivial⟩
    | ok p =>
      obtain ⟨s', tid⟩ := p
      simp only [applyOp, hreg]
      obtain ⟨-, -, -, -, -, -, -, htid, -, hown, -, hdrugs, -, hhist, -, -⟩ :=
        registerDrug_ok hreg
      have hne : tokenId ≠ tid := by
        have := (hwf.counter_bound tokenId hex).2
        omega
      rw [hdrugs tokenId, if_neg hne, hhist tokenId, if_neg hne, hown tokenId,
        if_neg hne]
      exact ⟨hina, rfl, rfl⟩
  | transfer sender t' toA et now =>
    cases htr : transferOwnership s sender t' toA et now with
    | error err => simp only [applyOp, htr]; exact ⟨hina, trivial, trivial⟩
    | ok p =>
      obtain ⟨s', ev⟩ := p
      simp only [applyOp, htr]
      obtain ⟨-, -, -, -, hact, -, -, -, hown, -, hdrugs, -, hhist, -, -⟩ :=
        transferOwnership_ok htr
      have hne : tokenId ≠ t' := by
        intro hc
        subst hc
        rw [hina] at hact
        cases hact
      rw [hdrugs tokenId, if_neg hne, hhist tokenId, if_neg hne, hown tokenId,
        if_neg hne]
      exact ⟨hina, rfl, rfl⟩
  | deactivate sender t' =>
    cases hd : deactivateDrug s sender t' with
    | error err => simp only [applyOp, hd]; exact ⟨hina, trivial, trivial⟩
    | ok s' =>
      simp only [applyOp, hd]
      obtain ⟨-, -, hdrugs, -, hown, -, -, hhist, -, -⟩ := deactivateDrug_ok hd
      rw [hdrugs tokenId, hhist, hown]
      by_cases hne : tokenId = t'
      · rw [if_pos hne]
        exact ⟨rfl, rfl, rfl⟩
      · rw [if_neg hne]
        exact ⟨hina, rfl, rfl⟩
  | assign sender user role =>
    cases ha : assignRole s sender user role with
    | error err => simp only [applyOp, ha]; exact ⟨hina, trivial, trivial⟩
    | ok s' =>
      simp only [applyOp, ha]
      obtain ⟨-, -, -, hown, -, hdrugs, -, hhist, -⟩ := assignRole_ok ha
      rw [hdrugs, hhist, hown]
      exact ⟨hina, rfl, rfl⟩

theorem inactive_forever {s : State} (hwf : WF s) {tokenId : Nat}
    (hex : s.owners tokenId ≠ 0) (hina : (s.drugs tokenId).isActive = false) :
    ∀ ops2 : List Op,
      (((ops2.foldl applyOp s).drugs tokenId).isActive = false ∧
        (ops2.foldl applyOp s).drugHistory tokenId = s.drugHistory tokenId) := by
  intro ops2
  induction ops2 generalizing s with
  | nil => exact ⟨hina, rfl⟩
  | cons op rest ih =>
    have hstep := inactive_step hwf hex hina op
    have h := ih (wf_applyOp hwf op) (by rw [hstep.2.2]; exact hex) hstep.1
    rw [List.foldl_cons]
    exact ⟨h.1, h.2.trans hstep.2.1⟩

end DrugAuth

/-- C6: `deactivateDrug` fails with the authorization error for any
requester other than the current owner; once a registered batch is
inactive, deactivating again by the owner succeeds with no new event and no
record change (idempotent), the flag never returns to `true` and the
history never grows under any further sequence of calls, no transfer of the
batch can succeed, and an owner-initiated transfer to a valid target fails
with the "batch inactive" `StateError`, leaving history and ownership
unchanged. -/
theorem C6_deactivation_is_permanent (s : DrugAuth.State) (hr : DrugAuth.Reachable s)
    (tokenId : Nat) (hex : s.owners tokenId ≠ 0) :
    (∀ sender, sender ≠ (s.drugs tokenId).currentOwner →
      DrugAuth.deactivateDrug s sender tokenId
        = .error (.authorization "Not the token owner")) ∧
    ((s.drugs tokenId).isActive = false →
      (∃ s', DrugAuth.deactivateDrug s ((s.drugs tokenId).currentOwner) tokenId
          = .ok s' ∧
        s'.drugHistory = s.drugHistory ∧ (∀ t, s'.drugs t = s.drugs t)) ∧
      (∀ ops2 : List DrugAuth.Op,
        (((ops2.foldl DrugAuth.applyOp s).drugs tokenId).isActive = false ∧
          (ops2.foldl DrugAuth.applyOp s).drugHistory tokenId
            = s.drugHistory tokenId)) ∧
      (∀ sender toA et now s' ev,
        DrugAuth.transferOwnership s sender tokenId toA et now ≠ .ok (s', ev)) ∧
      (∀ toA et now, toA ≠ 0 → toA ≠ (s.drugs tokenId).currentOwner →
        DrugAuth.transferOwnership s ((s.drugs tokenId).currentOwner) tokenId toA
          et now = .error (.state "Drug is not active"))) := by
  have hwf := DrugAuth.wf_reachable hr
  have hsync : (s.drugs tokenId).currentOwner = s.owners tokenId :=
    hwf.owner_sync tokenId hex
  constructor
  · intro sender hne
    have hcode : s.owners tokenId ≠ sender := by
      rw [← hsync]
      exact fun hc => hne hc.symm
    simp [DrugAuth.deactivateDrug, DrugAuth.ownerOf, hex, hcode]
  intro hina
  refine ⟨?_, DrugAuth.inactive_forever hwf hex hina, ?_, ?_⟩
  · cases hd : DrugAuth.deactivateDrug s ((s.drugs tokenId).currentOwner) tokenId with
    | error err =>
      exfalso
      revert hd
      simp [DrugAuth.deactivateDrug, DrugAuth.ownerOf, hex, hsync]
    | ok s' =>
      obtain ⟨-, -, hdrugs, -, -, -, -, hhist, -, -⟩ := DrugAuth.deactivateDrug_ok hd
      refine ⟨s', rfl, hhist, ?_⟩
      intro t
      rw [hdrugs t]
      by_cases ht : t = tokenId
      · subst ht
        rw [if_pos rfl]
        exact DrugAuth.drug_setInactive_eq hina
      · rw [if_neg ht]
  · intro sender toA et now s' ev htr
    obtain ⟨-, -, -, -, hact, -, -, -, -, -, -, -, -, -, -⟩ :=
      DrugAuth.transferOwnership_ok htr
    rw [hina] at hact
    cases hact
  · intro toA et now hto0 htoc
    have htoo : toA ≠ s.owners tokenId := by
      rw [← hsync]
      exact htoc
    have hc0 : (s.drugs tokenId).currentOwner ≠ 0 := by
      rw [hsync]
      exact hex
    simp [DrugAuth.transferOwnership, DrugAuth.ownerOf, hex, hsync.symm, hc0, hto0,
      htoc, htoo, hina]

/-- Witness for C6: register, deactivate, then observe that an
owner-initiated transfer fails with the inactive-state error. -/
theorem C6_deactivation_is_permanent_witness :
    DrugAuth.transferOwnership
      (DrugAuth.execOps 1 [DrugAuth.Op.register 1 "B" "N" "M" 100 "h" 0,
        DrugAuth.Op.deactivate 1 1])
      (((DrugAuth.execOps 1 [DrugAuth.Op.register 1 "B" "N" "M" 100 "h" 0,
        DrugAuth.Op.deactivate 1 1]).drugs 1).currentOwner) 1 2 "transfer" 5
      = .error (.state "Drug is not active") :=
  ((C6_deactivation_is_permanent _ ⟨1, _, by decide, rfl⟩ 1 (by decide)).2
    (by decide)).2.2.2 2 "transfer" 5 (by decide) (by decide)

namespace DrugAuth

theorem string_length_eq_zero (x : String) : x.length = 0 ↔ x = "" := by
  cases x with
  | mk data =>
    simp [String.length]
    constructor
    · intro h
      subst h
      rfl
    · intro h
      rw [show data = [] from congrArg String.data h]

end DrugAuth

/-- C5 as stated fails on the code: "fails with `ConflictError` exactly when
the batchCode is already registered" is violated when a duplicate batch code
is submitted together with a failing validation check — after registering
batch code `"A"`, re-registering `"A"` with a non-future expiry yields the
expiry `ValidationError`, not a `ConflictError`, although the code is
already registered. -/
theorem C5_counterexample :
    (DrugAuth.execOps 1 [DrugAuth.Op.register 1 "A" "N" "M" 100 "h" 0]).batchIdToTokenId
      "A" ≠ 0 ∧
    DrugAuth.registerDrug
      (DrugAuth.execOps 1 [DrugAuth.Op.register 1 "A" "N" "M" 100 "h" 0])
      1 "A" "N" "M" 0 "h" 50
      = .error (.validation "Expiry date must be in the future") := by
  constructor
  · decide
  · rfl

/-- C5 amended: on every reachable state, `registerDrug` fails with a
`ValidationError` exactly when `batchCode`, `name` or `manufacturerName` is
empty or the expiry is not strictly in the future, and with a
`ConflictError` exactly when all validation checks pass and the batch code
is already registered (validation is checked first); "already registered"
coincides with some registered batch carrying the code; on any failure no
state change happens, so `count()` is unchanged; a successful registration
returns id `count() + 1` — in particular `1` on the very first
registration. -/
theorem C5_amended_register_errors (s : DrugAuth.State) (hr : DrugAuth.Reachable s)
    (sender : DrugAuth.Address) (hs0 : sender ≠ 0)
    (batchId drugName manufacturer ipfsHash : String) (expiryDate now : Nat) :
    ((∃ m, DrugAuth.registerDrug s sender batchId drugName manufacturer expiryDate
        ipfsHash now = .error (.validation m)) ↔
      (batchId = "" ∨ drugName = "" ∨ manufacturer = "" ∨ ¬ now < expiryDate)) ∧
    ((∃ m, DrugAuth.registerDrug s sender batchId drugName manufacturer expiryDate
        ipfsHash now = .error (.conflict m)) ↔
      (¬(batchId = "" ∨ drugName = "" ∨ manufacturer = "" ∨ ¬ now < expiryDate) ∧
        s.batchIdToTokenId batchId ≠ 0)) ∧
    (s.batchIdToTokenId batchId ≠ 0 ↔
      ∃ t, s.owners t ≠ 0 ∧ (s.drugs t).batchId = batchId) ∧
    (∀ e, DrugAuth.registerDrug s sender batchId drugName manufacturer expiryDate
        ipfsHash now = .error e →
      DrugAuth.applyOp s (.register sender batchId drugName manufacturer expiryDate
        ipfsHash now) = s) ∧
    (∀ s' tid, DrugAuth.registerDrug s sender batchId drugName manufacturer expiryDate
        ipfsHash now = .ok (s', tid) → tid = DrugAuth.totalDrugs s + 1) := by
  have hwf := DrugAuth.wf_reachable hr
  have hidx : s.batchIdToTokenId batchId ≠ 0 ↔
      ∃ t, s.owners t ≠ 0 ∧ (s.drugs t).batchId = batchId := by
    constructor
    · intro h
      exact ⟨s.batchIdToTokenId batchId, (hwf.code_token _ h).1, (hwf.code_token _ h).2⟩
    · rintro ⟨t, ht, hbt⟩
      have htc := (hwf.token_code t ht).2
      rw [hbt] at htc
      rw [htc]
      have := (hwf.counter_bound t ht).1
      omega
  have herrapp : ∀ e, DrugAuth.registerDrug s sender batchId drugName manufacturer
      expiryDate ipfsHash now = .error e →
      DrugAuth.applyOp s (.register sender batchId drugName manufacturer expiryDate
        ipfsHash now) = s := by
    intro e he
    simp [DrugAuth.applyOp, he]
  have hokid : ∀ s' tid, DrugAuth.registerDrug s sender batchId drugName manufacturer
      expiryDate ipfsHash now = .ok (s', tid) → tid = DrugAuth.totalDrugs s + 1 := by
    intro s' tid h
    obtain ⟨-, -, -, -, -, -, -, htid, -, -, -, -, -, -, -, -⟩ :=
      DrugAuth.registerDrug_ok h
    exact htid
  refine ⟨?_, ?_, hidx, herrapp, hokid⟩ <;>
  · by_cases hb : batchId = ""
    · subst hb
      have hres : DrugAuth.registerDrug s sender "" drugName manufacturer
          expiryDate ipfsHash now = .error (.validation "Batch ID cannot be empty") := by
        rw [DrugAuth.registerDrug, if_pos (by decide)]
      simp [hres]
    by_cases hdn : drugName = ""
    · subst hdn
      have hres : DrugAuth.registerDrug s sender batchId "" manufacturer
          expiryDate ipfsHash now = .error (.validation "Drug name cannot be empty") := by
        rw [DrugAuth.registerDrug,
          if_neg (fun hc => hb ((DrugAuth.string_length_eq_zero _).mp hc)),
          if_pos (by decide)]
      simp [hres, hb]
    by_cases hm : manufacturer = ""
    · subst hm
      have hres : DrugAuth.registerDrug s sender batchId drugName ""
          expiryDate ipfsHash now
          = .error (.validation "Manufacturer cannot be empty") := by
        rw [DrugAuth.registerDrug,
          if_neg (fun hc => hb ((DrugAuth.string_length_eq_zero _).mp hc)),
          if_neg (fun hc => hdn ((DrugAuth.string_length_eq_zero _).mp hc)),
          if_pos (by decide)]
      simp [hres, hb, hdn]
    by_cases hexp : now < expiryDate
    case neg =>
      have hres : DrugAuth.registerDrug s sender batchId drugName manufacturer
          expiryDate ipfsHash now
          = .error (.validation "Expiry date must be in the future") := by
        rw [DrugAuth.registerDrug,
          if_neg (fun hc => hb ((DrugAuth.string_length_eq_zero _).mp hc)),
          if_neg (fun hc => hdn ((DrugAuth.string_length_eq_zero _).mp hc)),
          if_neg (fun hc => hm ((DrugAuth.string_length_eq_zero _).mp hc)),
          if_pos (show ¬ expiryDate > now from hexp)]
      simp [hres, hb, hdn, hm, hexp]
    case pos =>
      by_cases hdup : s.batchIdToTokenId batchId = 0
      case neg =>
        have hres : DrugAuth.registerDrug s sender batchId drugName manufacturer
            expiryDate ipfsHash now = .error (.conflict "Batch ID already exists") := by
          rw [DrugAuth.registerDrug,
            if_neg (fun hc => hb ((DrugAuth.string_length_eq_zero _).mp hc)),
            if_neg (fun hc => hdn ((DrugAuth.string_length_eq_zero _).mp hc)),
            if_neg (fun hc => hm ((DrugAuth.string_length_eq_zero _).mp hc)),
            if_neg (show ¬ ¬ expiryDate > now from not_not_intro hexp),
            if_pos hdup]
        simp [hres, hb, hdn, hm, hexp, hdup]
      case pos =>
        have hfresh : s.owners (s.tokenCounter + 1) = 0 := by
          by_contra hc
          have := (hwf.counter_bound _ hc).2
          omega
        cases hresc : DrugAuth.registerDrug s sender batchId drugName manufacturer
            expiryDate ipfsHash now with
        | error err =>
          exfalso
          revert hresc
          rw [DrugAuth.registerDrug,
            if_neg (fun hc => hb ((DrugAuth.string_length_eq_zero _).mp hc)),
            if_neg (fun hc => hdn ((DrugAuth.string_length_eq_zero _).mp hc)),
            if_neg (fun hc => hm ((DrugAuth.string_length_eq_zero _).mp hc)),
            if_neg (show ¬ ¬ expiryDate > now from not_not_intro hexp),
            if_neg (show ¬ s.batchIdToTokenId batchId ≠ 0 from not_not_intro hdup)]
          simp [DrugAuth.safeMint, hs0, hfresh]
        | ok p =>
          simp [hresc, hb, hdn, hm, hexp, hdup]

/-- Witness for the amended C5: re-registering an already-used batch code
with otherwise valid inputs is exactly a `ConflictError`. -/
theorem C5_amended_register_errors_witness :
    (∃ m, DrugAuth.registerDrug
        (DrugAuth.execOps 1 [DrugAuth.Op.register 1 "A" "N" "M" 100 "h" 0])
        1 "A" "N" "M" 100 "h" 0 = .error (.conflict m)) ↔
      (¬(("A" : String) = "" ∨ ("N" : String) = "" ∨ ("M" : String) = "" ∨
          ¬ (0:Nat) < 100) ∧
        (DrugAuth.execOps 1
          [DrugAuth.Op.register 1 "A" "N" "M" 100 "h" 0]).batchIdToTokenId "A" ≠ 0) :=
  (C5_amended_register_errors _ ⟨1, _, by decide, rfl⟩ 1 (by decide)
    "A" "N" "M" "h" 100 0).2.1

namespace Server

theorem updateDrugBatch_ok {s : MemStorage} {id : Nat} {u : BatchUpdates} {now : Nat}
    {s' : MemStorage} {b : DrugBatch}
    (h : updateDrugBatch s id u now = .ok (s', b)) :
    b.status = u.status.getD b.status ∧
    b.currentOwner = u.currentOwner.getD b.currentOwner ∧
    b.currentOwnerAddress = u.currentOwnerAddress.getD b.currentOwnerAddress ∧
    s'.drugBatches.length = s.drugBatches.length ∧
    s'.supplyChainEvents = s.supplyChainEvents ∧ s'.nextId = s.nextId := by
  cases hfind : s.drugBatches.find? (fun x => x.id = id) with
  | none => simp [updateDrugBatch, hfind] at h
  | some existing =>
    simp only [updateDrugBatch, hfind, Except.ok.injEq, Prod.mk.injEq] at h
    obtain ⟨hs, hb⟩ := h
    subst hs
    subst hb
    cases u with
    | mk uco ucoa ust =>
      refine ⟨?_, ?_, ?_, by simp [List.length_map], rfl, rfl⟩ <;>
        cases ust <;> cases uco <;> cases ucoa <;> simp

end Server

/-- C8 as stated fails on the code: `getDashboardStats` counts by the
`status` string only. A batch whose expiry (5) is already past at time 10
but whose status is `"manufactured"` is still counted by the code's
"verified drugs" ("non-expired") figure although the claim's
expiry-strictly-after-now reading excludes it; and after a transfer with
`eventType = "verify"` the code counts the batch as an active transfer in
progress although the most recent event is neither Transfer nor
Distribute. -/
theorem C8_counterexample :
    (Server.getDashboardStats
        (Server.routeCreateDrugBatch Server.emptyStorage
          ⟨"B1", "D", "M", 0, 5, "O", "0xA", none, none, none, none⟩ 0).1).verifiedDrugs
      = 1 ∧
    Server.specNonExpiredCount
        (Server.routeCreateDrugBatch Server.emptyStorage
          ⟨"B1", "D", "M", 0, 5, "O", "0xA", none, none, none, none⟩ 0).1 10 = 0 ∧
    ((Server.routeTransfer
        (Server.routeCreateDrugBatch Server.emptyStorage
          ⟨"B1", "D", "M", 0, 5, "O", "0xA", none, none, none, none⟩ 0).1
        "B1" "P" "0xB" "verify" none 1).toOption.map
      (fun r => ((Server.getDashboardStats r.1).activeTransfers,
        Server.specActiveTransfersInProgress r.1))) = some (1, 0) := by
  refine ⟨?_, ?_, ?_⟩ <;> decide

/-- C8 amended: the dashboard aggregates are computed from the `status`
field alone — two stores whose batches carry the same statuses produce
identical stats, whatever their expiry timestamps, so "non-expired" means
`status ≠ "expired"` and not `expiry > now`; creation stores status
`"manufactured"` when none is supplied and grows the total by one; the
transfer route sets the batch status to `"delivered"` exactly for
`eventType = "deliver"` and to `"in_transit"` for every other event type
(not only Transfer/Distribute), appends one event carrying that event type,
and leaves the total unchanged. -/
theorem C8_amended_dashboard_counts :
    (∀ s1 s2 : Server.MemStorage,
      s1.drugBatches.map Server.DrugBatch.status
          = s2.drugBatches.map Server.DrugBatch.status →
      Server.getDashboardStats s1 = Server.getDashboardStats s2) ∧
    (∀ (s : Server.MemStorage) (ins : Server.InsertDrugBatch) (now : Nat),
      ((Server.routeCreateDrugBatch s ins now).2.1).status
          = Server.orDefault ins.status "manufactured" ∧
      (Server.routeCreateDrugBatch s ins now).1.drugBatches.length
          = s.drugBatches.length + 1) ∧
    (∀ (s : Server.MemStorage) (batchId newOwner newAddr eventType : String)
      (txh : Option String) (now : Nat) (s' : Server.MemStorage)
      (b : Server.DrugBatch) (ev : Server.SupplyChainEvent),
      Server.routeTransfer s batchId newOwner newAddr eventType txh now
          = .ok (s', b, ev) →
      b.status = (if eventType = "deliver" then "delivered" else "in_transit") ∧
      ev.eventType = eventType ∧
      s'.drugBatches.length = s.drugBatches.length ∧
      s'.supplyChainEvents.length = s.supplyChainEvents.length + 1) := by
  refine ⟨?_, ?_, ?_⟩
  · intro s1 s2 hmap
    have hlen : s1.drugBatches.length = s2.drugBatches.length := by
      rw [← List.length_map s1.drugBatches Server.DrugBatch.status, hmap,
        List.length_map]
    have hcnt : ∀ p : String → Bool,
        (s1.drugBatches.filter (fun b => p b.status)).length
          = (s2.drugBatches.filter (fun b => p b.status)).length := by
      intro p
      rw [← List.countP_eq_length_filter, ← List.countP_eq_length_filter,
        show (fun b : Server.DrugBatch => p b.status)
          = (p ∘ Server.DrugBatch.status) from rfl,
        ← List.countP_map, ← List.countP_map, hmap]
    simp only [Server.getDashboardStats, Server.DashboardStats.mk.injEq]
    exact ⟨hlen, hcnt (fun st => decide (st = "in_transit")),
      hcnt (fun st => decide (st ≠ "expired")), trivial⟩
  · intro s ins now
    exact ⟨rfl, by simp [Server.routeCreateDrugBatch, Server.createDrugBatch,
      Server.createSupplyChainEvent]⟩
  · intro s batchId newOwner newAddr eventType txh now s' b ev h
    by_cases hmf : batchId = "" ∨ newOwner = "" ∨ newAddr = "" ∨ eventType = ""
    · simp [Server.routeTransfer, hmf] at h
    cases hfind : Server.getDrugBatchByBatchId s batchId with
    | none => simp [Server.routeTransfer, hmf, hfind] at h
    | some cur =>
      cases hupd : Server.updateDrugBatch s cur.id
          { currentOwner := some newOwner, currentOwnerAddress := some newAddr,
            status := some (if eventType = "deliver" then "delivered"
              else "in_transit") } now with
      | error e => simp [Server.routeTransfer, hmf, hfind, hupd] at h
      | ok p =>
        obtain ⟨s1, upd⟩ := p
        obtain ⟨hst, -, -, hblen, hev, -⟩ := Server.updateDrugBatch_ok hupd
        simp only [Server.routeTransfer, hmf, hfind, hupd, if_neg,
          Server.createSupplyChainEvent, Except.ok.injEq, Prod.mk.injEq,
          ite_false, reduceIte] at h
        obtain ⟨hs', hb, hevv⟩ := h
        subst hs'
        subst hb
        subst hevv
        refine ⟨by simpa using hst, rfl, by simpa using hblen, by simp [hev]⟩

/-- Witness for the amended C8: a concrete non-deliver transfer marks the
batch `"in_transit"` and appends one event of the same type. -/
theorem C8_amended_dashboard_counts_witness :
    ((Server.routeTransfer
        (Server.routeCreateDrugBatch Server.emptyStorage
          ⟨"B1", "D", "M", 0, 5, "O", "0xA", none, none, none, none⟩ 0).1
        "B1" "P" "0xB" "transfer" none 1).toOption.map
      (fun r => (r.2.1.status, r.2.2.eventType))) = some ("in_transit", "transfer") := by
  decide

/-- C9: owner queries compare addresses case-insensitively while storage is
case-preserving — a stored batch is returned by `getDrugBatchesByOwner s a`
exactly when its stored `currentOwnerAddress` equals `a` up to letter case,
and a created record keeps the owner address exactly as written. -/
theorem C9_case_insensitive_owner_query (s : Server.MemStorage) (addr : String)
    (b : Server.DrugBatch) :
    (b ∈ Server.getDrugBatchesByOwner s addr ↔
      b ∈ s.drugBatches ∧
        Server.lowercase b.currentOwnerAddress = Server.lowercase addr) ∧
    (∀ (ins : Server.InsertDrugBatch) (now : Nat),
      ((Server.createDrugBatch s ins now).2).currentOwnerAddress
          = ins.currentOwnerAddress ∧
      (Server.createDrugBatch s ins now).2 ∈
        (Server.createDrugBatch s ins now).1.drugBatches) := by
  constructor
  · rw [Server.getDrugBatchesByOwner, List.mem_mergeSort, List.mem_filter]
    simp
  · intro ins now
    exact ⟨rfl, by simp [Server.createDrugBatch]⟩
